import Mathlib

/-!
Verification of the litek share-lifecycle and credential-derived encryption core
(`src/lib/crypto.ts`: key derivation, `encryptData`/`decryptData`, `createShare`,
`getShare`, `deleteShare`, `cleanupExpiredShares`; `src/lib/webdav.ts`:
`uploadFile`, `downloadFile`, `deleteFile`).

Bytes are modelled as `Nat` values (< 256 where it matters).  Platform
primitives (Web Crypto AES-GCM / PBKDF2, `TextEncoder`/`TextDecoder`,
`JSON.stringify`/`JSON.parse`) are modelled by executable idealizations that
keep exactly the properties the source relies on (determinism, injectivity,
authenticated failure on a wrong key); every such modelling choice is stated
in the corresponding doc comment.  The repository's own byte-level code
(base64 conversion, IV prepend/strip, path construction, the lifecycle
orchestration and its error mapping) is translated faithfully.
-/

namespace Litek

/-- Models `TextEncoder.encode` applied to one character: a fixed-width
(3-byte, base-128) encoding of the code point.  Real UTF-8 is variable-width;
the model keeps the properties the source relies on — determinism, injectivity,
and byte values below 128 < 256. -/
def encodeChar (c : Char) : List Nat :=
  [c.toNat % 128, c.toNat / 128 % 128, c.toNat / 16384]

def encodeStrList : List Char → List Nat
  | [] => []
  | c :: cs => encodeChar c ++ encodeStrList cs

/-- Models `TextEncoder.encode`: deterministic injective byte encoding of a
string (see `encodeChar`). -/
def encodeStr (s : String) : List Nat :=
  encodeStrList s.data

def decodeStrList : List Nat → Option (List Char)
  | [] => some []
  | b0 :: b1 :: b2 :: rest =>
    match decodeStrList rest with
    | some cs => some (Char.ofNat (b0 + 128 * b1 + 16384 * b2) :: cs)
    | none => none
  | _ => none

/-- Models `TextDecoder.decode` on byte strings produced by `encodeStr`
(exact inverse; fails on byte strings that are not an encoding). -/
def decodeStr (bs : List Nat) : Option String :=
  (decodeStrList bs).map String.mk

theorem char_toNat_lt (c : Char) : c.toNat < 1114112 := by
  have h := c.valid
  simp only [UInt32.isValidChar, Nat.isValidChar] at h
  have : c.toNat = c.val.toNat := rfl
  omega

theorem encodeChar_lt_128 (c : Char) : ∀ b ∈ encodeChar c, b < 128 := by
  have h : c.toNat < 1114112 := char_toNat_lt c
  intro b hb
  simp only [encodeChar, List.mem_cons, List.not_mem_nil, or_false] at hb
  rcases hb with h1 | h1 | h1 <;> subst h1 <;> omega

theorem encodeStrList_lt_128 (cs : List Char) : ∀ b ∈ encodeStrList cs, b < 128 := by
  induction cs with
  | nil => intro b hb; simp [encodeStrList] at hb
  | cons c cs ih =>
    intro b hb
    simp only [encodeStrList, List.mem_append] at hb
    rcases hb with hb | hb
    · exact encodeChar_lt_128 c b hb
    · exact ih b hb

theorem decodeStrList_encodeStrList (cs : List Char) :
    decodeStrList (encodeStrList cs) = some cs := by
  induction cs with
  | nil => rfl
  | cons c cs ih =>
    have h : c.toNat < 1114112 := char_toNat_lt c
    have harith : c.toNat % 128 + 128 * (c.toNat / 128 % 128) + 16384 * (c.toNat / 16384)
        = c.toNat := by omega
    show decodeStrList (c.toNat % 128 :: c.toNat / 128 % 128 :: c.toNat / 16384 ::
      encodeStrList cs) = some (c :: cs)
    simp only [decodeStrList, ih, harith, Char.ofNat_toNat]

theorem encodeStrList_injective (cs1 cs2 : List Char)
    (h : encodeStrList cs1 = encodeStrList cs2) : cs1 = cs2 := by
  have h1 := decodeStrList_encodeStrList cs1
  have h2 := decodeStrList_encodeStrList cs2
  rw [h] at h1
  exact Option.some_inj.mp (h1.symm.trans h2)

theorem encodeStr_injective (s1 s2 : String) (h : encodeStr s1 = encodeStr s2) :
    s1 = s2 := by
  have hd : s1.data = s2.data := encodeStrList_injective _ _ h
  cases s1
  cases s2
  exact congrArg String.mk hd

theorem decodeStr_encodeStr (s : String) : decodeStr (encodeStr s) = some s := by
  simp only [decodeStr, encodeStr, decodeStrList_encodeStrList, Option.map_some']

/-! ### Base64 (embeds `arrayBufferToBase64` / `base64ToArrayBuffer`) -/

def base64Alphabet : List Char :=
  "ABCDEFGHIJKLMNOPQRSTUVWXYZabcdefghijklmnopqrstuvwxyz0123456789+/".data

def b64Char (i : Nat) : Char :=
  base64Alphabet.getD i '='

def b64Index (c : Char) : Option Nat :=
  base64Alphabet.findIdx? (fun d => d == c)

def btoaAux : List Nat → List Char
  | [] => []
  | [a] => [b64Char (a / 4), b64Char (a % 4 * 16), '=', '=']
  | [a, b] => [b64Char (a / 4), b64Char (a % 4 * 16 + b / 16), b64Char (b % 16 * 4), '=']
  | a :: b :: c :: rest =>
    b64Char (a / 4) :: b64Char (a % 4 * 16 + b / 16) :: b64Char (b % 16 * 4 + c / 64) ::
      b64Char (c % 64) :: btoaAux rest

def atobAux : List Char → Option (List Nat)
  | [] => some []
  | c0 :: c1 :: c2 :: c3 :: rest =>
    if c2 = '=' then
      if c3 = '=' ∧ rest = [] then
        match b64Index c0, b64Index c1 with
        | some i0, some i1 => some [i0 * 4 + i1 / 16]
        | _, _ => none
      else none
    else if c3 = '=' then
      if rest = [] then
        match b64Index c0, b64Index c1, b64Index c2 with
        | some i0, some i1, some i2 => some [i0 * 4 + i1 / 16, i1 % 16 * 16 + i2 / 4]
        | _, _, _ => none
      else none
    else
      match b64Index c0, b64Index c1, b64Index c2, b64Index c3, atobAux rest with
      | some i0, some i1, some i2, some i3, some bs =>
        some ((i0 * 4 + i1 / 16) :: (i1 % 16 * 16 + i2 / 4) :: (i2 % 4 * 64 + i3) :: bs)
      | _, _, _, _, _ => none
  | _ => none

/-- Embeds `arrayBufferToBase64` (crypto.ts): the source maps each byte to a
character and applies `btoa`; the net effect is standard base64 of the byte
sequence, implemented here directly. -/
def arrayBufferToBase64 (buffer : List Nat) : String :=
  String.mk (btoaAux buffer)

/-- Embeds `base64ToArrayBuffer` (crypto.ts): standard base64 decoding; the
source's `atob` throws on malformed input, modelled as `none`. -/
def base64ToArrayBuffer (base64 : String) : Option (List Nat) :=
  atobAux base64.data

theorem b64Index_b64Char : ∀ i < 64, b64Index (b64Char i) = some i := by decide

theorem b64Char_ne_eq : ∀ i < 64, b64Char i ≠ '=' := by decide

theorem atobAux_btoaAux (bs : List Nat) (h : ∀ b ∈ bs, b < 256) :
    atobAux (btoaAux bs) = some bs := by
  induction bs using btoaAux.induct with
  | case1 => rfl
  | case2 a =>
    have ha : a < 256 := h a (by simp)
    have h0 : b64Index (b64Char (a / 4)) = some (a / 4) :=
      b64Index_b64Char _ (by omega)
    have h1 : b64Index (b64Char (a % 4 * 16)) = some (a % 4 * 16) :=
      b64Index_b64Char _ (by omega)
    simp [btoaAux, atobAux, h0, h1]
    omega
  | case3 a b =>
    have ha : a < 256 := h a (by simp)
    have hb : b < 256 := h b (by simp)
    have h0 : b64Index (b64Char (a / 4)) = some (a / 4) :=
      b64Index_b64Char _ (by omega)
    have h1 : b64Index (b64Char (a % 4 * 16 + b / 16)) = some (a % 4 * 16 + b / 16) :=
      b64Index_b64Char _ (by omega)
    have h2 : b64Index (b64Char (b % 16 * 4)) = some (b % 16 * 4) :=
      b64Index_b64Char _ (by omega)
    have hne : ¬ b64Char (b % 16 * 4) = '=' := b64Char_ne_eq _ (by omega)
    simp [btoaAux, atobAux, hne, h0, h1, h2]
    omega
  | case4 a b c rest ih =>
    have ha : a < 256 := h a (by simp)
    have hb : b < 256 := h b (by simp)
    have hc : c < 256 := h c (by simp)
    have hrest : ∀ x ∈ rest, x < 256 := fun x hx => h x (by simp [hx])
    have h0 : b64Index (b64Char (a / 4)) = some (a / 4) :=
      b64Index_b64Char _ (by omega)
    have h1 : b64Index (b64Char (a % 4 * 16 + b / 16)) = some (a % 4 * 16 + b / 16) :=
      b64Index_b64Char _ (by omega)
    have h2 : b64Index (b64Char (b % 16 * 4 + c / 64)) = some (b % 16 * 4 + c / 64) :=
      b64Index_b64Char _ (by omega)
    have h3 : b64Index (b64Char (c % 64)) = some (c % 64) := b64Index_b64Char _ (by omega)
    have hne2 : ¬ b64Char (b % 16 * 4 + c / 64) = '=' := b64Char_ne_eq _ (by omega)
    have hne3 : ¬ b64Char (c % 64) = '=' := b64Char_ne_eq _ (by omega)
    have ihr := ih hrest
    simp only [btoaAux]
    simp [atobAux, hne2, hne3, h0, h1, h2, h3, ihr]
    omega

/-! ### Key derivation and AES-GCM (Web Crypto primitives, idealized) -/

/-- Models a Web Crypto `CryptoKey` as produced by `crypto.subtle.deriveKey`:
the algorithm name and bit length of the derived key, plus idealized key
material.  Real PBKDF2-SHA256 output is a deterministic, collision-free
function of the passcode (collisions are cryptographically negligible and the
source relies on their absence); the idealization takes the encoded passcode
bytes as the material, which keeps exactly determinism and injectivity. -/
structure CryptoKeyModel where
  algorithm : String
  length : Nat
  material : List Nat
  deriving DecidableEq, Repr

/-- Embeds `deriveKeyFromPassCode` (crypto.ts lines 11-43).  The PBKDF2
derivation itself is a platform primitive; per spec section 4.1 it fails with a
key-derivation error only on an empty passcode (crypto-provider
unavailability is outside the model), and otherwise deterministically yields a
256-bit AES-GCM key.  Errors are modelled by their message strings, which is
what the lifecycle code dispatches on. -/
def deriveKeyFromPassCode (passCode : String) : Except String CryptoKeyModel :=
  if passCode = "" then .error "Key derivation failed"
  else .ok ⟨"AES-GCM", 256, encodeStr passCode⟩

/-- Models `crypto.subtle.encrypt` with AES-GCM: an idealized AEAD.  The
ciphertext binds the key (standing in for the keystream and authentication
tag); `aesGcmDecrypt` recovers the plaintext under the same key and fails on
any other derived key, which models the tag-mismatch failure of real AES-GCM.
The byte 255 never occurs in derived key material (`encodeStr` yields bytes
below 128), making the framing unambiguous. -/
def aesGcmEncrypt (key : CryptoKeyModel) (_iv : List Nat) (pt : List Nat) : List Nat :=
  key.material ++ 255 :: pt

/-- Models `crypto.subtle.decrypt` with AES-GCM (see `aesGcmEncrypt`):
succeeds exactly when the ciphertext was produced under the same key. -/
def aesGcmDecrypt (key : CryptoKeyModel) (_iv : List Nat) (ct : List Nat) :
    Except String (List Nat) :=
  if ct.take key.material.length = key.material ∧
      (ct.drop key.material.length).head? = some 255 then
    .ok (ct.drop (key.material.length + 1))
  else .error "Decryption failed"

/-- Embeds `encryptData` (crypto.ts lines 51-79): derive the key from the
passcode, encrypt the data bytes under a caller-supplied 12-byte random IV
(`crypto.getRandomValues`, modelled as the `iv` parameter), prepend the IV to
the ciphertext, and base64 the combined buffer.  `dataBytes` is the
`TextEncoder` encoding of the data string (for object data, of its JSON
serialization). -/
def encryptData (dataBytes : List Nat) (passCode : String) (iv : List Nat) :
    Except String String :=
  match deriveKeyFromPassCode passCode with
  | .error e => .error e
  | .ok key => .ok (arrayBufferToBase64 (iv ++ aesGcmEncrypt key iv dataBytes))

/-- Embeds `decryptData` (crypto.ts lines 87-110): derive the key, decode the
base64 string (the source's `atob` throws on malformed input), split off the
first 12 bytes as the IV, and AES-GCM-decrypt the remainder.  Returns the
decrypted bytes (the source returns the `TextDecoder` decoding thereof). -/
def decryptData (encryptedData : String) (passCode : String) :
    Except String (List Nat) :=
  match deriveKeyFromPassCode passCode with
  | .error e => .error e
  | .ok key =>
    match base64ToArrayBuffer encryptedData with
    | none => .error "Invalid base64"
    | some combined => aesGcmDecrypt key (combined.take 12) (combined.drop 12)

theorem aesGcmDecrypt_encrypt (key : CryptoKeyModel) (iv iv' : List Nat) (pt : List Nat) :
    aesGcmDecrypt key iv' (aesGcmEncrypt key iv pt) = .ok pt := by
  have hdrop : (key.material ++ 255 :: pt).drop key.material.length = 255 :: pt :=
    List.drop_left _ _
  have htake : (key.material ++ 255 :: pt).take key.material.length = key.material :=
    List.take_left _ _
  unfold aesGcmDecrypt aesGcmEncrypt
  rw [if_pos ⟨htake, by rw [hdrop]; rfl⟩]
  have h1 : key.material.length + 1 = key.material.length + 1 := rfl
  rw [show key.material.length + 1 = key.material.length + 1 from rfl,
    ← List.drop_drop 1 key.material.length, hdrop]
  rfl

/-- All bytes of the combined IV-plus-ciphertext buffer built by `encryptData`
are below 256 when the IV's are (key material and plaintext bytes enter as
given). -/
theorem aesGcmEncrypt_lt_256 (key : CryptoKeyModel) (iv : List Nat) (pt : List Nat)
    (hk : ∀ b ∈ key.material, b < 256) (hp : ∀ b ∈ pt, b < 256) :
    ∀ b ∈ aesGcmEncrypt key iv pt, b < 256 := by
  intro b hb
  simp only [aesGcmEncrypt, List.mem_append, List.mem_cons] at hb
  rcases hb with hb | hb | hb
  · exact hk b hb
  · omega
  · exact hp b hb

/-- The base64 round trip of the repository's own conversion pair. -/
theorem base64_roundtrip (bs : List Nat) (h : ∀ b ∈ bs, b < 256) :
    base64ToArrayBuffer (arrayBufferToBase64 bs) = some bs := by
  unfold base64ToArrayBuffer arrayBufferToBase64
  exact atobAux_btoaAux bs h

/-- The derived key for a passcode, as used on the success path. -/
def derivedKey (passCode : String) : CryptoKeyModel :=
  ⟨"AES-GCM", 256, encodeStr passCode⟩

/-- The base64 blob `encryptData` produces on its success path. -/
def encryptedBlob (dataBytes : List Nat) (passCode : String) (iv : List Nat) : String :=
  arrayBufferToBase64 (iv ++ aesGcmEncrypt (derivedKey passCode) iv dataBytes)

theorem deriveKey_ok (passCode : String) (hpc : passCode ≠ "") :
    deriveKeyFromPassCode passCode = .ok (derivedKey passCode) := by
  unfold deriveKeyFromPassCode derivedKey
  rw [if_neg hpc]

theorem derivedKey_material_lt_128 (passCode : String) :
    ∀ b ∈ (derivedKey passCode).material, b < 128 := by
  intro b hb
  exact encodeStrList_lt_128 passCode.data b hb

theorem encryptData_ok (dataBytes : List Nat) (passCode : String) (iv : List Nat)
    (hpc : passCode ≠ "") :
    encryptData dataBytes passCode iv = .ok (encryptedBlob dataBytes passCode iv) := by
  unfold encryptData encryptedBlob
  rw [deriveKey_ok passCode hpc]

theorem combined_lt_256 (dataBytes : List Nat) (passCode : String) (iv : List Nat)
    (hivb : ∀ b ∈ iv, b < 256) (hdb : ∀ b ∈ dataBytes, b < 256) :
    ∀ b ∈ iv ++ aesGcmEncrypt (derivedKey passCode) iv dataBytes, b < 256 := by
  intro b hb
  rcases List.mem_append.mp hb with hb | hb
  · exact hivb b hb
  · refine aesGcmEncrypt_lt_256 _ iv dataBytes ?_ hdb b hb
    intro x hx
    have := derivedKey_material_lt_128 passCode x hx
    omega

/-- Round trip of `decryptData` after `encryptData` under the same passcode:
succeeds and returns the original data bytes, for any non-empty passcode and
any 12-byte IV. -/
theorem decryptData_encryptedBlob (dataBytes : List Nat) (passCode : String)
    (iv : List Nat) (hpc : passCode ≠ "") (hiv : iv.length = 12)
    (hivb : ∀ b ∈ iv, b < 256) (hdb : ∀ b ∈ dataBytes, b < 256) :
    decryptData (encryptedBlob dataBytes passCode iv) passCode = .ok dataBytes := by
  have hcomb := combined_lt_256 dataBytes passCode iv hivb hdb
  unfold decryptData
  rw [deriveKey_ok passCode hpc]
  unfold encryptedBlob
  rw [base64_roundtrip _ hcomb]
  show aesGcmDecrypt (derivedKey passCode)
      ((iv ++ aesGcmEncrypt (derivedKey passCode) iv dataBytes).take 12)
      ((iv ++ aesGcmEncrypt (derivedKey passCode) iv dataBytes).drop 12) = .ok dataBytes
  have hdrop12 : (iv ++ aesGcmEncrypt (derivedKey passCode) iv dataBytes).drop 12
      = aesGcmEncrypt (derivedKey passCode) iv dataBytes := by
    rw [← hiv]
    exact List.drop_left _ _
  rw [hdrop12]
  exact aesGcmDecrypt_encrypt _ iv _ dataBytes

/-- Decrypting under a key with different material always fails, for any two
derived keys (material bytes below 128): this is the idealized counterpart of
the AES-GCM authentication-tag mismatch. -/
theorem aesGcmDecrypt_wrong_key (key key' : CryptoKeyModel) (iv iv' : List Nat)
    (pt : List Nat) (hk : ∀ b ∈ key.material, b < 128)
    (hk' : ∀ b ∈ key'.material, b < 128) (hne : key.material ≠ key'.material) :
    aesGcmDecrypt key' iv' (aesGcmEncrypt key iv pt) = .error "Decryption failed" := by
  unfold aesGcmDecrypt aesGcmEncrypt
  rw [if_neg]
  rintro ⟨h1, h2⟩
  rcases Nat.lt_trichotomy key'.material.length key.material.length with hlt | heq | hgt
  · rw [List.head?_drop] at h2
    rw [List.getElem?_append, if_pos hlt, List.getElem?_eq_getElem hlt] at h2
    have h2' : key.material[key'.material.length] = 255 := Option.some_inj.mp h2
    have hm : key.material[key'.material.length] ∈ key.material :=
      List.getElem_mem hlt
    have := hk _ hm
    omega
  · rw [heq, List.take_left] at h1
    exact hne h1
  · have hlen : key.material.length <
        (key.material ++ 255 :: pt).length := by
      simp
    have h255 : (key.material ++ 255 :: pt)[key.material.length]? = some 255 := by
      rw [List.getElem?_append_right (Nat.le_refl _)]
      simp
    have htk : ((key.material ++ 255 :: pt).take key'.material.length)[key.material.length]?
        = some 255 := by
      rw [List.getElem?_take, if_pos hgt, h255]
    rw [h1] at htk
    have := hk' 255 (List.getElem?_mem htk)
    omega

/-- `decryptData` under the wrong passcode always fails. -/
theorem decryptData_wrong_passcode (dataBytes : List Nat) (p1 p2 : String)
    (iv : List Nat) (hp1 : p1 ≠ "") (hne : p1 ≠ p2) (hiv : iv.length = 12)
    (hivb : ∀ b ∈ iv, b < 256) (hdb : ∀ b ∈ dataBytes, b < 256) :
    ∃ e, decryptData (encryptedBlob dataBytes p1 iv) p2 = .error e := by
  by_cases hp2 : p2 = ""
  · refine ⟨"Key derivation failed", ?_⟩
    unfold decryptData deriveKeyFromPassCode
    rw [if_pos hp2]
  · refine ⟨"Decryption failed", ?_⟩
    have hcomb := combined_lt_256 dataBytes p1 iv hivb hdb
    unfold decryptData
    rw [deriveKey_ok p2 hp2]
    unfold encryptedBlob
    rw [base64_roundtrip _ hcomb]
    show aesGcmDecrypt (derivedKey p2) _
        ((iv ++ aesGcmEncrypt (derivedKey p1) iv dataBytes).drop 12) = _
    have hdrop12 : (iv ++ aesGcmEncrypt (derivedKey p1) iv dataBytes).drop 12
        = aesGcmEncrypt (derivedKey p1) iv dataBytes := by
      rw [← hiv]
      exact List.drop_left _ _
    rw [hdrop12]
    refine aesGcmDecrypt_wrong_key _ _ _ _ _ (derivedKey_material_lt_128 p1)
      (derivedKey_material_lt_128 p2) ?_
    intro hmat
    exact hne (encodeStr_injective _ _ hmat)

/-- Every error `decryptData` can produce is one of three fixed messages;
in particular it is never one of the two messages `getShare` special-cases
(`Share has expired`, `File not found`). -/
theorem decryptData_error_msgs (s p e : String) (h : decryptData s p = .error e) :
    e = "Key derivation failed" ∨ e = "Invalid base64" ∨ e = "Decryption failed" := by
  unfold decryptData at h
  cases hd : deriveKeyFromPassCode p with
  | error e' =>
    rw [hd] at h
    unfold deriveKeyFromPassCode at hd
    by_cases hp : p = ""
    · rw [if_pos hp] at hd
      cases h
      cases hd
      exact Or.inl rfl
    · rw [if_neg hp] at hd
      cases hd
  | ok key =>
    rw [hd] at h
    cases hb : base64ToArrayBuffer s with
    | none =>
      rw [hb] at h
      dsimp only at h
      cases h
      exact Or.inr (Or.inl rfl)
    | some combined =>
      rw [hb] at h
      dsimp only at h
      unfold aesGcmDecrypt at h
      by_cases hc : (combined.drop 12).take key.material.length = key.material ∧
          ((combined.drop 12).drop key.material.length).head? = some 255
      · rw [if_pos hc] at h
        cases h
      · rw [if_neg hc] at h
        cases h
        exact Or.inr (Or.inr rfl)

/-! ### Share metadata and its JSON serialization -/

/-- Embeds the `ShareMetadata` interface (crypto.ts lines 218-226). -/
structure ShareMetadata where
  shareId : String
  fileName : String
  fileSize : Nat
  fileType : String
  createdAt : Nat
  expiresAt : Nat
  passCode : String
  deriving DecidableEq, Repr

/-- Helper for the serialization model: unary-encoded natural number followed
by the terminator byte 129. -/
def encNat (n : Nat) : List Nat :=
  List.replicate n 1 ++ [129]

def decNat : List Nat → Option (Nat × List Nat)
  | [] => none
  | b :: rest =>
    if b = 129 then some (0, rest)
    else if b = 1 then
      match decNat rest with
      | some (n, r) => some (n + 1, r)
      | none => none
    else none

/-- Helper for the serialization model: encoded string field followed by the
terminator byte 130 (string bytes are below 128, so framing is unambiguous). -/
def encField (s : String) : List Nat :=
  encodeStr s ++ [130]

def decFieldBytes : List Nat → Option (List Nat × List Nat)
  | [] => none
  | b :: rest =>
    if b = 130 then some ([], rest)
    else
      match decFieldBytes rest with
      | some (bs, r) => some (b :: bs, r)
      | none => none

def decField (bs : List Nat) : Option (String × List Nat) :=
  match decFieldBytes bs with
  | some (raw, rest) =>
    match decodeStr raw with
    | some s => some (s, rest)
    | none => none
  | none => none

/-- Models `JSON.stringify` on a `ShareMetadata` value followed by
`TextEncoder.encode`: a deterministic, injective serialization of the record
into bytes (field order as in the interface declaration), with
`parseMetadata` as its exact inverse.  The concrete framing differs from JSON
text, but keeps the properties the source relies on: round-tripping through
`JSON.parse` and byte values below 256. -/
def stringifyMetadata (m : ShareMetadata) : List Nat :=
  encField m.shareId ++ encField m.fileName ++ encNat m.fileSize ++
    encField m.fileType ++ encNat m.createdAt ++ encNat m.expiresAt ++
    encField m.passCode

/-- Models `TextDecoder.decode` followed by `JSON.parse` into a
`ShareMetadata`: exact inverse of `stringifyMetadata`, failing (as
`JSON.parse` throws) on any byte string that is not a serialization. -/
def parseMetadata (bs : List Nat) : Option ShareMetadata :=
  match decField bs with
  | none => none
  | some (shareId, r1) =>
    match decField r1 with
    | none => none
    | some (fileName, r2) =>
      match decNat r2 with
      | none => none
      | some (fileSize, r3) =>
        match decField r3 with
        | none => none
        | some (fileType, r4) =>
          match decNat r4 with
          | none => none
          | some (createdAt, r5) =>
            match decNat r5 with
            | none => none
            | some (expiresAt, r6) =>
              match decField r6 with
              | none => none
              | some (passCode, r7) =>
                if r7 = [] then
                  some ⟨shareId, fileName, fileSize, fileType, createdAt,
                    expiresAt, passCode⟩
                else none

theorem decNat_encNat (n : Nat) (rest : List Nat) :
    decNat (encNat n ++ rest) = some (n, rest) := by
  induction n with
  | zero => rfl
  | succ n ih =>
    show decNat (1 :: (List.replicate n 1 ++ [129] ++ rest)) = _
    have h1 : ¬ (1 : Nat) = 129 := by omega
    have ih' : decNat (List.replicate n 1 ++ [129] ++ rest) = some (n, rest) := ih
    simp only [decNat, if_neg h1, if_pos rfl, ih']
    exact if_pos trivial

theorem decFieldBytes_append (bs rest : List Nat) (h : ∀ b ∈ bs, b < 128) :
    decFieldBytes (bs ++ 130 :: rest) = some (bs, rest) := by
  induction bs with
  | nil => rfl
  | cons b bs ih =>
    have hb : b < 128 := h b (by simp)
    have hbs : ∀ x ∈ bs, x < 128 := fun x hx => h x (by simp [hx])
    have hne : ¬ b = 130 := by omega
    show decFieldBytes (b :: (bs ++ 130 :: rest)) = _
    simp only [decFieldBytes, if_neg hne, ih hbs]

theorem decField_append (s : String) (rest : List Nat) :
    decField (encField s ++ rest) = some (s, rest) := by
  unfold decField encField encodeStr
  rw [List.append_assoc, List.singleton_append,
    decFieldBytes_append _ _ (fun b hb => encodeStrList_lt_128 s.data b hb)]
  have h := decodeStr_encodeStr s
  unfold encodeStr at h
  dsimp only
  rw [h]

theorem parseMetadata_stringifyMetadata (m : ShareMetadata) :
    parseMetadata (stringifyMetadata m) = some m := by
  unfold parseMetadata stringifyMetadata
  rw [show encField m.passCode = encField m.passCode ++ [] from
    (List.append_nil _).symm]
  simp only [List.append_assoc]
  simp only [decField_append, decNat_encNat]
  rfl

theorem stringifyMetadata_lt_256 (m : ShareMetadata) :
    ∀ b ∈ stringifyMetadata m, b < 256 := by
  have hf : ∀ s : String, ∀ b ∈ encField s, b < 256 := by
    intro s b hb
    unfold encField at hb
    rcases List.mem_append.mp hb with hb | hb
    · have := encodeStrList_lt_128 s.data b hb
      omega
    · simp at hb
      omega
  have hn : ∀ n : Nat, ∀ b ∈ encNat n, b < 256 := by
    intro n b hb
    unfold encNat at hb
    rcases List.mem_append.mp hb with hb | hb
    · have := List.eq_of_mem_replicate hb
      omega
    · simp at hb
      omega
  intro b hb
  unfold stringifyMetadata at hb
  simp only [List.mem_append] at hb
  rcases hb with ((((((hb | hb) | hb) | hb) | hb) | hb) | hb)
  · exact hf _ b hb
  · exact hf _ b hb
  · exact hn _ b hb
  · exact hf _ b hb
  · exact hn _ b hb
  · exact hn _ b hb
  · exact hf _ b hb

/-! ### Remote blob store, local index, and the WebDAV client -/

/-- The remote WebDAV store: association of paths to object bodies. -/
abbrev RemoteStore := List (String × List Nat)

def lookupObj : RemoteStore → String → Option (List Nat)
  | [], _ => none
  | (p, b) :: r, path => if p = path then some b else lookupObj r path

def removeObj : RemoteStore → String → RemoteStore
  | [], _ => []
  | (p, b) :: r, path =>
    if p = path then removeObj r path else (p, b) :: removeObj r path

def putObj (r : RemoteStore) (path : String) (body : List Nat) : RemoteStore :=
  (path, body) :: removeObj r path

/-- Transport-fault injection: for each remote operation and path, `none`
means the transport behaves normally and `some e` means the operation rejects
with error message `e` (XHR error events, non-2xx/404 statuses, the 409
conflict message, and so on). -/
structure Oracle where
  uploadFault : String → Option String
  downloadFault : String → Option String
  deleteFault : String → Option String

/-- Embeds `uploadFile` (webdav.ts lines 84-148) at the flat paths the share
module uses (for `/<shareId>_...` the computed `dirPath` is empty, so the
`createDirectory` attempt is skipped): a successful PUT stores the body at
the path (idempotent overwrite); a transport failure rejects with the
oracle-injected message and stores nothing. -/
def uploadFile (o : Oracle) (r : RemoteStore) (path : String) (body : List Nat) :
    Except String RemoteStore :=
  match o.uploadFault path with
  | some e => .error e
  | none => .ok (putObj r path body)

/-- Embeds `downloadFile` (webdav.ts lines 156-195): status 200 resolves with
the body, status 404 rejects with `File not found`, any other status or a
network error (oracle-injected) rejects with its message. -/
def downloadFile (o : Oracle) (r : RemoteStore) (path : String) :
    Except String (List Nat) :=
  match o.downloadFault path with
  | some e => .error e
  | none =>
    match lookupObj r path with
    | some body => .ok body
    | none => .error "File not found"

/-- Embeds `deleteFile` (webdav.ts lines 201-215): the DELETE succeeds when
the response is 2xx or 404 — deleting an already-absent object is success —
and throws `Delete failed: ...` on any other status (oracle-injected). -/
def deleteFile (o : Oracle) (r : RemoteStore) (path : String) :
    Except String RemoteStore :=
  match o.deleteFault path with
  | some e => .error e
  | none => .ok (removeObj r path)

theorem lookupObj_removeObj_same (r : RemoteStore) (p : String) :
    lookupObj (removeObj r p) p = none := by
  induction r with
  | nil => rfl
  | cons e r ih =>
    obtain ⟨q, b⟩ := e
    by_cases h : q = p
    · simp only [removeObj, if_pos h, ih]
    · simp only [removeObj, if_neg h, lookupObj, if_neg h, ih]

theorem lookupObj_removeObj_other (r : RemoteStore) (p q : String) (h : q ≠ p) :
    lookupObj (removeObj r p) q = lookupObj r q := by
  induction r with
  | nil => rfl
  | cons e r ih =>
    obtain ⟨x, b⟩ := e
    by_cases hx : x = p
    · have hxq : ¬ x = q := by
        rw [hx]
        exact fun hh => h hh.symm
      simp only [removeObj, if_pos hx, ih, lookupObj, if_neg hxq]
    · by_cases hq : x = q
      · simp only [removeObj, if_neg hx, lookupObj, if_pos hq]
      · simp only [removeObj, if_neg hx, lookupObj, if_neg hq, ih]

theorem lookupObj_putObj_same (r : RemoteStore) (p : String) (b : List Nat) :
    lookupObj (putObj r p b) p = some b := by
  simp only [putObj, lookupObj, if_pos rfl]
  exact if_pos trivial

theorem lookupObj_putObj_other (r : RemoteStore) (p q : String) (b : List Nat)
    (h : q ≠ p) :
    lookupObj (putObj r p b) q = lookupObj r q := by
  have hp : ¬ p = q := fun hh => h hh.symm
  simp only [putObj, lookupObj, if_neg hp]
  exact lookupObj_removeObj_other r p q h

/-- The local IndexedDB share index (object store `shares`, keyed by
`shareId`). -/
abbrev LocalIndex := List ShareMetadata

/-- Models `db.put` on the keyed object store: insert, replacing any existing
record with the same `shareId`. -/
def putEntry (idx : LocalIndex) (m : ShareMetadata) : LocalIndex :=
  m :: idx.filter (fun e => e.shareId != m.shareId)

/-- Models `db.delete` on the keyed object store. -/
def deleteEntry (idx : LocalIndex) (shareId : String) : LocalIndex :=
  idx.filter (fun e => e.shareId != shareId)

/-- A remote operation attempted by the lifecycle code, for ordering
statements. -/
inductive Ev where
  | put (path : String)
  | get (path : String)
  | del (path : String)
  deriving DecidableEq, Repr

/-- The mutable state the share lifecycle touches: the remote store and the
local index. -/
structure SysState where
  remote : RemoteStore
  localIdx : LocalIndex
  deriving Repr

/-- Result of one lifecycle operation: the state afterwards, the ordered
trace of remote operations attempted, and the returned value or thrown
error (identified by its message, which is what the source dispatches on). -/
structure OpResult (α : Type) where
  state : SysState
  trace : List Ev
  result : Except String α

/-! ### Share lifecycle (crypto.ts share-management module) -/

def metadataPathOf (shareId : String) : String :=
  "/" ++ shareId ++ "_metadata.json.enc"

def filePathOf (shareId : String) : String :=
  "/" ++ shareId ++ "_file.dat"

/-- Embeds `generatePassCode` (crypto.ts lines 193-203): `len` characters
from the 36-symbol lowercase-alphanumeric alphabet, each indexed by a random
byte mod 36 (`randomValues` models `crypto.getRandomValues`). -/
def passCodeChars : List Char :=
  "abcdefghijklmnopqrstuvwxyz0123456789".data

def generatePassCode (len : Nat) (randomValues : List Nat) : String :=
  String.mk ((List.range len).map
    (fun i => passCodeChars.getD (randomValues.getD i 0 % 36) 'a'))

/-- Models the platform `encodeURIComponent`: unreserved characters pass
through, every other character becomes percent-encoded bytes of its code
point (the model reuses `encodeChar`; real percent-encoding uses UTF-8
bytes, and the model keeps determinism and unreserved pass-through). -/
def hexDigitChar (n : Nat) : Char :=
  "0123456789ABCDEF".data.getD n '0'

def isUnreservedURIChar (c : Char) : Bool :=
  c.isAlphanum || c == '-' || c == '_' || c == '.' || c == '!' || c == '~' ||
    c == '*' || c == Char.ofNat 39 || c == '(' || c == ')'

def percentEncodeChar (c : Char) : List Char :=
  ((encodeChar c).map
    (fun b => ['%', hexDigitChar (b / 16), hexDigitChar (b % 16)])).flatten

def encodeURIComponent (s : String) : String :=
  String.mk ((s.data.map
    (fun c => if isUnreservedURIChar c then [c] else percentEncodeChar c)).flatten)

/-- The passcode `createShare` uses: `customPassCode || generatePassCode(6)` —
JS `||` treats the empty string as falsy, so an empty custom passcode is
replaced by a generated one. -/
def chosenPassCode (customPassCode : Option String) (randomValues : List Nat) :
    String :=
  match customPassCode with
  | some s => if s = "" then generatePassCode 6 randomValues else s
  | none => generatePassCode 6 randomValues

/-- The `ShareMetadata` record `createShare` builds (JS `file.type || ...`
replaces an empty MIME type). -/
def mkShareMetadata (shareId fileName : String) (fileSize : Nat)
    (fileType : String) (now expiresIn : Nat) (passCode : String) :
    ShareMetadata where
  shareId := shareId
  fileName := fileName
  fileSize := fileSize
  fileType := if fileType = "" then "application/octet-stream" else fileType
  createdAt := now
  expiresAt := now + expiresIn
  passCode := passCode

/-- The catch-block cleanup of `createShare` (crypto.ts lines 317-323): one
`try` around both deletes, errors swallowed — so a failure of the first
delete skips the second. -/
def createShareCleanup (o : Oracle) (r : RemoteStore) (shareId : String) :
    RemoteStore × List Ev :=
  match deleteFile o r (metadataPathOf shareId) with
  | .error _ => (r, [.del (metadataPathOf shareId)])
  | .ok r1 =>
    match deleteFile o r1 (filePathOf shareId) with
    | .error _ => (r1, [.del (metadataPathOf shareId), .del (filePathOf shareId)])
    | .ok r2 => (r2, [.del (metadataPathOf shareId), .del (filePathOf shareId)])

/-- Embeds `createShare` (crypto.ts lines 269-326).  Effectful inputs are
parameters: `now` is `Date.now()`, `shareId` is the `nanoid(10)` token, `iv`
the random IV drawn inside `encryptData`, `randomValues` the random bytes of
`generatePassCode`, `origin` is `window.location.origin`, and the file is
given as its bytes plus MIME type.  Encrypt the metadata, upload the
metadata blob, upload the payload blob, then write the local index entry;
on any failure, run the compensating cleanup and rethrow the original
error. -/
def createShare (o : Oracle) (st : SysState) (now : Nat) (shareId : String)
    (iv randomValues : List Nat) (origin : String) (fileBytes : List Nat)
    (fileType fileName : String) (expiresIn : Nat)
    (customPassCode : Option String) : OpResult (String × String × String) :=
  let passCode := chosenPassCode customPassCode randomValues
  let metadata := mkShareMetadata shareId fileName fileBytes.length fileType
    now expiresIn passCode
  match encryptData (stringifyMetadata metadata) passCode iv with
  | .error e =>
    let c := createShareCleanup o st.remote shareId
    ⟨⟨c.1, st.localIdx⟩, c.2, .error e⟩
  | .ok encryptedMetadata =>
    match uploadFile o st.remote (metadataPathOf shareId)
        (encodeStr encryptedMetadata) with
    | .error e =>
      let c := createShareCleanup o st.remote shareId
      ⟨⟨c.1, st.localIdx⟩, .put (metadataPathOf shareId) :: c.2, .error e⟩
    | .ok r1 =>
      match uploadFile o r1 (filePathOf shareId) fileBytes with
      | .error e =>
        let c := createShareCleanup o r1 shareId
        ⟨⟨c.1, st.localIdx⟩,
          .put (metadataPathOf shareId) :: .put (filePathOf shareId) :: c.2,
          .error e⟩
      | .ok r2 =>
        ⟨⟨r2, putEntry st.localIdx metadata⟩,
          [.put (metadataPathOf shareId), .put (filePathOf shareId)],
          .ok (shareId, passCode,
            origin ++ "/share/" ++ shareId ++ "?code=" ++
              encodeURIComponent passCode)⟩

/-- Embeds `deleteShare` (crypto.ts lines 392-405): delete the metadata
object, then the payload object, then the local index entry; the catch block
logs and rethrows, so the first failing delete aborts the rest and the error
propagates to the caller. -/
def deleteShare (o : Oracle) (st : SysState) (shareId : String) : OpResult Unit :=
  match deleteFile o st.remote (metadataPathOf shareId) with
  | .error e => ⟨st, [.del (metadataPathOf shareId)], .error e⟩
  | .ok r1 =>
    match deleteFile o r1 (filePathOf shareId) with
    | .error e =>
      ⟨⟨r1, st.localIdx⟩,
        [.del (metadataPathOf shareId), .del (filePathOf shareId)], .error e⟩
    | .ok r2 =>
      ⟨⟨r2, deleteEntry st.localIdx shareId⟩,
        [.del (metadataPathOf shareId), .del (filePathOf shareId)], .ok ()⟩

/-- Models `Blob.text()` on a stored body: decodes the bytes back to the text
they encode (all stored text bodies are `encodeStr` images; `TextDecoder`
replacement behavior on other byte strings is modelled by the empty
string). -/
def blobText (bs : List Nat) : String :=
  (decodeStr bs).getD ""

/-- The error mapping of `getShare`'s catch block (crypto.ts lines 353-363):
`Share has expired` is rethrown unchanged, the store's `File not found`
becomes `Share not found`, and every other error becomes the single message
`Invalid share ID or passcode`. -/
def mapGetShareError (e : String) : String :=
  if e = "Share has expired" then e
  else if e = "File not found" then "Share not found"
  else "Invalid share ID or passcode"

/-- Embeds `getShare` (crypto.ts lines 334-364): download the metadata blob,
decrypt it, parse the JSON; if `Date.now() > expiresAt`, delete the share and
throw `Share has expired`; every error raised inside the `try` goes through
the catch block's mapping (`mapGetShareError`). -/
def getShare (o : Oracle) (st : SysState) (now : Nat) (shareId passCode : String) :
    OpResult ShareMetadata :=
  match downloadFile o st.remote (metadataPathOf shareId) with
  | .error e => ⟨st, [.get (metadataPathOf shareId)], .error (mapGetShareError e)⟩
  | .ok body =>
    match decryptData (blobText body) passCode with
    | .error e => ⟨st, [.get (metadataPathOf shareId)], .error (mapGetShareError e)⟩
    | .ok decryptedBytes =>
      match parseMetadata decryptedBytes with
      | none =>
        ⟨st, [.get (metadataPathOf shareId)],
          .error (mapGetShareError "Unexpected end of JSON input")⟩
      | some metadata =>
        if now > metadata.expiresAt then
          let d := deleteShare o st shareId
          match d.result with
          | .ok _ =>
            ⟨d.state, .get (metadataPathOf shareId) :: d.trace,
              .error "Share has expired"⟩
          | .error e =>
            ⟨d.state, .get (metadataPathOf shareId) :: d.trace,
              .error (mapGetShareError e)⟩
        else ⟨st, [.get (metadataPathOf shareId)], .ok metadata⟩

/-- Embeds `downloadShare` (crypto.ts lines 373-386): fetch-and-verify the
metadata via `getShare`, then download the payload; no try/catch, so payload
download errors propagate unchanged. -/
def downloadShare (o : Oracle) (st : SysState) (now : Nat)
    (shareId passCode : String) : OpResult (List Nat × ShareMetadata) :=
  let g := getShare o st now shareId passCode
  match g.result with
  | .error e => ⟨g.state, g.trace, .error e⟩
  | .ok metadata =>
    match downloadFile o g.state.remote (filePathOf shareId) with
    | .error e => ⟨g.state, g.trace ++ [.get (filePathOf shareId)], .error e⟩
    | .ok file => ⟨g.state, g.trace ++ [.get (filePathOf shareId)], .ok (file, metadata)⟩

/-- The loop body of `cleanupExpiredShares` (crypto.ts lines 429-438):
iterate the snapshot of the local index, delete every expired entry, count
the successful deletes, and continue past individual failures. -/
def cleanupLoop (o : Oracle) (now : Nat) :
    List ShareMetadata → SysState → SysState × List Ev × Nat
  | [], st => (st, [], 0)
  | share :: rest, st =>
    if now > share.expiresAt then
      let d := deleteShare o st share.shareId
      let (st', tr, n) := cleanupLoop o now rest d.state
      match d.result with
      | .ok _ => (st', d.trace ++ tr, n + 1)
      | .error _ => (st', d.trace ++ tr, n)
    else cleanupLoop o now rest st

/-- Embeds `cleanupExpiredShares` (crypto.ts lines 423-441). -/
def cleanupExpiredShares (o : Oracle) (st : SysState) (now : Nat) :
    SysState × List Ev × Nat :=
  cleanupLoop o now st.localIdx st

/-! ### Path and lifecycle lemmas -/

theorem metadataPathOf_inj (a b : String) (h : metadataPathOf a = metadataPathOf b) :
    a = b := by
  unfold metadataPathOf at h
  have hd := congrArg String.data h
  rw [String.data_append, String.data_append, String.data_append,
    String.data_append] at hd
  have h2 := (List.append_left_inj _).mp hd
  have h3 : '/' :: a.data = '/' :: b.data := h2
  have h4 : a.data = b.data := (List.cons.injEq _ _ _ _).mp h3 |>.2
  cases a
  cases b
  exact congrArg String.mk h4

theorem filePathOf_inj (a b : String) (h : filePathOf a = filePathOf b) :
    a = b := by
  unfold filePathOf at h
  have hd := congrArg String.data h
  rw [String.data_append, String.data_append, String.data_append,
    String.data_append] at hd
  have h2 := (List.append_left_inj _).mp hd
  have h3 : '/' :: a.data = '/' :: b.data := h2
  have h4 : a.data = b.data := (List.cons.injEq _ _ _ _).mp h3 |>.2
  cases a
  cases b
  exact congrArg String.mk h4

theorem metadataPathOf_ne_filePathOf (a b : String) :
    metadataPathOf a ≠ filePathOf b := by
  intro h
  have hd := congrArg String.data h
  unfold metadataPathOf filePathOf at hd
  rw [String.data_append, String.data_append, String.data_append,
    String.data_append] at hd
  have h1 := congrArg List.getLast? hd
  rw [List.getLast?_append_of_ne_nil _ (by decide),
    List.getLast?_append_of_ne_nil _ (by decide)] at h1
  exact absurd h1 (by decide)

theorem generatePassCode_ne_empty (randomValues : List Nat) :
    generatePassCode 6 randomValues ≠ "" := by
  intro h
  have hd := congrArg String.data h
  have hlen := congrArg List.length hd
  simp [generatePassCode] at hlen

theorem chosenPassCode_ne_empty (customPassCode : Option String)
    (randomValues : List Nat) : chosenPassCode customPassCode randomValues ≠ "" := by
  unfold chosenPassCode
  cases customPassCode with
  | none => exact generatePassCode_ne_empty randomValues
  | some s =>
    dsimp only
    by_cases hs : s = ""
    · rw [if_pos hs]
      exact generatePassCode_ne_empty randomValues
    · rw [if_neg hs]
      exact hs

/-- Whether the transport lets both remote deletes of a share succeed. -/
def deleteFaultFree (o : Oracle) (shareId : String) : Bool :=
  (o.deleteFault (metadataPathOf shareId)).isNone &&
    (o.deleteFault (filePathOf shareId)).isNone

/-- A transport with no injected faults. -/
def idealOracle : Oracle :=
  ⟨fun _ => none, fun _ => none, fun _ => none⟩

theorem deleteShare_of_faultFree (o : Oracle) (st : SysState) (shareId : String)
    (h : deleteFaultFree o shareId = true) :
    deleteShare o st shareId =
      ⟨⟨removeObj (removeObj st.remote (metadataPathOf shareId)) (filePathOf shareId),
        deleteEntry st.localIdx shareId⟩,
        [.del (metadataPathOf shareId), .del (filePathOf shareId)], .ok ()⟩ := by
  unfold deleteFaultFree at h
  rw [Bool.and_eq_true, Option.isNone_iff_eq_none, Option.isNone_iff_eq_none] at h
  unfold deleteShare deleteFile
  rw [h.1, h.2]

theorem deleteShare_eq_fault1 (o : Oracle) (st : SysState) (shareId e1 : String)
    (h : o.deleteFault (metadataPathOf shareId) = some e1) :
    deleteShare o st shareId = ⟨st, [.del (metadataPathOf shareId)], .error e1⟩ := by
  unfold deleteShare deleteFile
  rw [h]

theorem deleteShare_eq_fault2 (o : Oracle) (st : SysState) (shareId e2 : String)
    (h1 : o.deleteFault (metadataPathOf shareId) = none)
    (h2 : o.deleteFault (filePathOf shareId) = some e2) :
    deleteShare o st shareId =
      ⟨⟨removeObj st.remote (metadataPathOf shareId), st.localIdx⟩,
        [.del (metadataPathOf shareId), .del (filePathOf shareId)], .error e2⟩ := by
  unfold deleteShare deleteFile
  rw [h1, h2]

theorem deleteShare_result_ok_iff (o : Oracle) (st : SysState) (shareId : String) :
    (deleteShare o st shareId).result = .ok () ↔ deleteFaultFree o shareId = true := by
  constructor
  · intro h
    unfold deleteFaultFree
    cases h1 : o.deleteFault (metadataPathOf shareId) with
    | some e =>
      rw [deleteShare_eq_fault1 o st shareId e h1] at h
      cases h
    | none =>
      cases h2 : o.deleteFault (filePathOf shareId) with
      | some e =>
        rw [deleteShare_eq_fault2 o st shareId e h1 h2] at h
        cases h
      | none => simp [h1, h2]
  · intro h
    rw [deleteShare_of_faultFree o st shareId h]

theorem deleteShare_localIdx_of_error (o : Oracle) (st : SysState) (shareId e : String)
    (h : (deleteShare o st shareId).result = .error e) :
    (deleteShare o st shareId).state.localIdx = st.localIdx := by
  cases h1 : o.deleteFault (metadataPathOf shareId) with
  | some e1 => rw [deleteShare_eq_fault1 o st shareId e1 h1]
  | none =>
    cases h2 : o.deleteFault (filePathOf shareId) with
    | some e2 => rw [deleteShare_eq_fault2 o st shareId e2 h1 h2]
    | none =>
      have hff : deleteFaultFree o shareId = true := by
        unfold deleteFaultFree
        simp [h1, h2]
      rw [deleteShare_of_faultFree o st shareId hff] at h
      cases h

theorem deleteShare_remote_cases (o : Oracle) (st : SysState) (shareId path : String) :
    lookupObj (deleteShare o st shareId).state.remote path = none ∨
    lookupObj (deleteShare o st shareId).state.remote path
      = lookupObj st.remote path := by
  cases h1 : o.deleteFault (metadataPathOf shareId) with
  | some e1 =>
    rw [deleteShare_eq_fault1 o st shareId e1 h1]
    exact Or.inr rfl
  | none =>
    cases h2 : o.deleteFault (filePathOf shareId) with
    | some e2 =>
      rw [deleteShare_eq_fault2 o st shareId e2 h1 h2]
      by_cases hp : path = metadataPathOf shareId
      · subst hp
        exact Or.inl (lookupObj_removeObj_same _ _)
      · exact Or.inr (lookupObj_removeObj_other _ _ _ hp)
    | none =>
      have hff : deleteFaultFree o shareId = true := by
        unfold deleteFaultFree
        simp [h1, h2]
      rw [deleteShare_of_faultFree o st shareId hff]
      by_cases hp : path = filePathOf shareId
      · subst hp
        exact Or.inl (lookupObj_removeObj_same _ _)
      · by_cases hp2 : path = metadataPathOf shareId
        · subst hp2
          show lookupObj (removeObj _ _) _ = none ∨ _
          rw [lookupObj_removeObj_other _ _ _ hp]
          exact Or.inl (lookupObj_removeObj_same _ _)
        · show lookupObj (removeObj _ _) _ = none ∨ _
          rw [lookupObj_removeObj_other _ _ _ hp,
            lookupObj_removeObj_other _ _ _ hp2]
          exact Or.inr rfl

theorem deleteShare_remote_frame (o : Oracle) (st : SysState) (shareId path : String)
    (h1 : path ≠ metadataPathOf shareId) (h2 : path ≠ filePathOf shareId) :
    lookupObj (deleteShare o st shareId).state.remote path
      = lookupObj st.remote path := by
  cases hf1 : o.deleteFault (metadataPathOf shareId) with
  | some e1 => rw [deleteShare_eq_fault1 o st shareId e1 hf1]
  | none =>
    cases hf2 : o.deleteFault (filePathOf shareId) with
    | some e2 =>
      rw [deleteShare_eq_fault2 o st shareId e2 hf1 hf2]
      exact lookupObj_removeObj_other _ _ _ h1
    | none =>
      have hff : deleteFaultFree o shareId = true := by
        unfold deleteFaultFree
        simp [hf1, hf2]
      rw [deleteShare_of_faultFree o st shareId hff]
      show lookupObj (removeObj (removeObj _ _) _) _ = _
      rw [lookupObj_removeObj_other _ _ _ h2, lookupObj_removeObj_other _ _ _ h1]

/-- A share is properly stored: the remote metadata object for `m.shareId`
holds the encrypted serialization of `m` under `m.passCode` with a 12-byte
IV, exactly as `createShare` writes it. -/
def storedProperly (r : RemoteStore) (m : ShareMetadata) (iv : List Nat) : Prop :=
  lookupObj r (metadataPathOf m.shareId) =
    some (encodeStr (encryptedBlob (stringifyMetadata m) m.passCode iv)) ∧
  m.passCode ≠ "" ∧ iv.length = 12 ∧ ∀ b ∈ iv, b < 256

theorem blobText_encodeStr (s : String) : blobText (encodeStr s) = s := by
  unfold blobText
  rw [decodeStr_encodeStr]
  rfl

theorem getShare_eq_downloadFault (o : Oracle) (st : SysState) (now : Nat)
    (shareId passCode e : String)
    (h : o.downloadFault (metadataPathOf shareId) = some e) :
    getShare o st now shareId passCode =
      ⟨st, [.get (metadataPathOf shareId)], .error (mapGetShareError e)⟩ := by
  unfold getShare downloadFile
  rw [h]

theorem getShare_eq_notFound (o : Oracle) (st : SysState) (now : Nat)
    (shareId passCode : String)
    (h : o.downloadFault (metadataPathOf shareId) = none)
    (h2 : lookupObj st.remote (metadataPathOf shareId) = none) :
    getShare o st now shareId passCode =
      ⟨st, [.get (metadataPathOf shareId)], .error "Share not found"⟩ := by
  unfold getShare downloadFile
  rw [h]
  dsimp only
  rw [h2]
  dsimp only
  simp [mapGetShareError]

/-- A fetch of a properly stored, unexpired share with the right passcode and
no transport fault succeeds with the stored metadata, reading exactly the
metadata object. -/
theorem getShare_stored_ok (o : Oracle) (st : SysState) (now : Nat)
    (m : ShareMetadata) (iv : List Nat) (hs : storedProperly st.remote m iv)
    (hdl : o.downloadFault (metadataPathOf m.shareId) = none)
    (hexp : ¬ now > m.expiresAt) :
    getShare o st now m.shareId m.passCode
      = ⟨st, [.get (metadataPathOf m.shareId)], .ok m⟩ := by
  obtain ⟨hlook, hpc, hiv, hivb⟩ := hs
  unfold getShare downloadFile
  rw [hdl]
  dsimp only
  rw [hlook]
  dsimp only
  rw [blobText_encodeStr,
    decryptData_encryptedBlob _ _ _ hpc hiv hivb (stringifyMetadata_lt_256 m)]
  dsimp only
  rw [parseMetadata_stringifyMetadata]
  dsimp only
  rw [if_neg hexp]

/-- A fetch of a properly stored, expired share with the right passcode and
no download fault reaches the expiry branch: it runs `deleteShare` and maps
its outcome through the catch block. -/
theorem getShare_stored_expired_eq (o : Oracle) (st : SysState) (now : Nat)
    (m : ShareMetadata) (iv : List Nat) (hs : storedProperly st.remote m iv)
    (hdl : o.downloadFault (metadataPathOf m.shareId) = none)
    (hexp : now > m.expiresAt) :
    getShare o st now m.shareId m.passCode =
      (match (deleteShare o st m.shareId).result with
       | .ok _ =>
         ⟨(deleteShare o st m.shareId).state,
           .get (metadataPathOf m.shareId) :: (deleteShare o st m.shareId).trace,
           .error "Share has expired"⟩
       | .error e =>
         ⟨(deleteShare o st m.shareId).state,
           .get (metadataPathOf m.shareId) :: (deleteShare o st m.shareId).trace,
           .error (mapGetShareError e)⟩) := by
  obtain ⟨hlook, hpc, hiv, hivb⟩ := hs
  unfold getShare downloadFile
  rw [hdl]
  dsimp only
  rw [hlook]
  dsimp only
  rw [blobText_encodeStr,
    decryptData_encryptedBlob _ _ _ hpc hiv hivb (stringifyMetadata_lt_256 m)]
  dsimp only
  rw [parseMetadata_stringifyMetadata]
  dsimp only
  rw [if_pos hexp]

/-- Fetching a properly stored expired share never succeeds, for any oracle
and any presented passcode. -/
theorem getShare_expired_result_error (o : Oracle) (st : SysState) (now : Nat)
    (m : ShareMetadata) (iv : List Nat) (hs : storedProperly st.remote m iv)
    (hexp : now > m.expiresAt) (p : String) :
    ∃ e, (getShare o st now m.shareId p).result = .error e := by
  cases hdf : o.downloadFault (metadataPathOf m.shareId) with
  | some e =>
    rw [getShare_eq_downloadFault o st now m.shareId p e hdf]
    exact ⟨_, rfl⟩
  | none =>
    by_cases hp : p = m.passCode
    · subst hp
      rw [getShare_stored_expired_eq o st now m iv hs hdf hexp]
      cases (deleteShare o st m.shareId).result with
      | ok _ => exact ⟨_, rfl⟩
      | error e => exact ⟨_, rfl⟩
    · obtain ⟨hlook, hpc, hiv, hivb⟩ := hs
      obtain ⟨e, he⟩ := decryptData_wrong_passcode (stringifyMetadata m)
        m.passCode p iv hpc (fun h => hp h.symm) hiv hivb
        (stringifyMetadata_lt_256 m)
      unfold getShare downloadFile
      rw [hdf]
      dsimp only
      rw [hlook]
      dsimp only
      rw [blobText_encodeStr, he]
      exact ⟨_, rfl⟩

/-- Fetching a share whose metadata object is absent never succeeds, for any
oracle. -/
theorem getShare_absent_result_error (o : Oracle) (st : SysState) (now : Nat)
    (shareId p : String)
    (h2 : lookupObj st.remote (metadataPathOf shareId) = none) :
    ∃ e, (getShare o st now shareId p).result = .error e := by
  cases hdf : o.downloadFault (metadataPathOf shareId) with
  | some e =>
    rw [getShare_eq_downloadFault o st now shareId p e hdf]
    exact ⟨_, rfl⟩
  | none =>
    rw [getShare_eq_notFound o st now shareId p hdf h2]
    exact ⟨_, rfl⟩

theorem getShare_state_cases (o : Oracle) (st : SysState) (now : Nat)
    (shareId p : String) :
    (getShare o st now shareId p).state = st ∨
    (getShare o st now shareId p).state = (deleteShare o st shareId).state := by
  unfold getShare
  cases downloadFile o st.remote (metadataPathOf shareId) with
  | error e => exact Or.inl rfl
  | ok body =>
    dsimp only
    cases decryptData (blobText body) p with
    | error e => exact Or.inl rfl
    | ok bytes =>
      dsimp only
      cases parseMetadata bytes with
      | none => exact Or.inl rfl
      | some metadata =>
        dsimp only
        by_cases hexp : now > metadata.expiresAt
        · rw [if_pos hexp]
          cases (deleteShare o st shareId).result with
          | ok _ => exact Or.inr rfl
          | error e => exact Or.inr rfl
        · rw [if_neg hexp]
          exact Or.inl rfl

theorem getShare_remote_after (o : Oracle) (st : SysState) (now : Nat)
    (shareId p path : String) :
    lookupObj (getShare o st now shareId p).state.remote path = none ∨
    lookupObj (getShare o st now shareId p).state.remote path
      = lookupObj st.remote path := by
  rcases getShare_state_cases o st now shareId p with h | h
  · rw [h]
    exact Or.inr rfl
  · rw [h]
    exact deleteShare_remote_cases o st shareId path

/-- After any fetch of a properly stored expired share, a second fetch (any
oracle, any passcode) still never succeeds. -/
theorem getShare_again_error (o o' : Oracle) (st : SysState) (now now' : Nat)
    (m : ShareMetadata) (iv : List Nat) (hs : storedProperly st.remote m iv)
    (hexp' : now' > m.expiresAt) (p p' : String) :
    ∃ e, (getShare o' (getShare o st now m.shareId p).state now'
      m.shareId p').result = .error e := by
  rcases getShare_remote_after o st now m.shareId p (metadataPathOf m.shareId)
    with h | h
  · exact getShare_absent_result_error o' _ now' m.shareId p' h
  · exact getShare_expired_result_error o' _ now' m iv
      ⟨by rw [h]; exact hs.1, hs.2.1, hs.2.2.1, hs.2.2.2⟩ hexp' p'

/-- A transport with no injected faults at all. -/
def noFaults (o : Oracle) : Prop :=
  (∀ p, o.uploadFault p = none) ∧ (∀ p, o.downloadFault p = none) ∧
    (∀ p, o.deleteFault p = none)

theorem noFaults_idealOracle : noFaults idealOracle :=
  ⟨fun _ => rfl, fun _ => rfl, fun _ => rfl⟩

theorem noFaults_deleteFaultFree (o : Oracle) (h : noFaults o) (id : String) :
    deleteFaultFree o id = true := by
  unfold deleteFaultFree
  rw [h.2.2, h.2.2]
  rfl

/-- The metadata record built by a `createShare` call, abbreviating the
argument plumbing. -/
def createdMetadata (now : Nat) (shareId : String) (randomValues : List Nat)
    (fileBytes : List Nat) (fileType fileName : String) (expiresIn : Nat)
    (customPassCode : Option String) : ShareMetadata :=
  mkShareMetadata shareId fileName fileBytes.length fileType now expiresIn
    (chosenPassCode customPassCode randomValues)

theorem createShare_eq_ok (o : Oracle) (st : SysState) (now : Nat)
    (shareId : String) (iv randomValues : List Nat) (origin : String)
    (fileBytes : List Nat) (fileType fileName : String) (expiresIn : Nat)
    (customPassCode : Option String)
    (h1 : o.uploadFault (metadataPathOf shareId) = none)
    (h2 : o.uploadFault (filePathOf shareId) = none) :
    createShare o st now shareId iv randomValues origin fileBytes fileType
      fileName expiresIn customPassCode =
      ⟨⟨putObj (putObj st.remote (metadataPathOf shareId)
          (encodeStr (encryptedBlob
            (stringifyMetadata (createdMetadata now shareId randomValues fileBytes
              fileType fileName expiresIn customPassCode))
            (chosenPassCode customPassCode randomValues) iv)))
          (filePathOf shareId) fileBytes,
        putEntry st.localIdx (createdMetadata now shareId randomValues fileBytes
          fileType fileName expiresIn customPassCode)⟩,
        [.put (metadataPathOf shareId), .put (filePathOf shareId)],
        .ok (shareId, chosenPassCode customPassCode randomValues,
          origin ++ "/share/" ++ shareId ++ "?code=" ++
            encodeURIComponent (chosenPassCode customPassCode randomValues))⟩ := by
  unfold createShare uploadFile createdMetadata
  dsimp only
  rw [encryptData_ok _ _ _ (chosenPassCode_ne_empty customPassCode randomValues),
    h1, h2]

theorem createShare_eq_metaFault (o : Oracle) (st : SysState) (now : Nat)
    (shareId : String) (iv randomValues : List Nat) (origin : String)
    (fileBytes : List Nat) (fileType fileName : String) (expiresIn : Nat)
    (customPassCode : Option String) (e : String)
    (h1 : o.uploadFault (metadataPathOf shareId) = some e) :
    createShare o st now shareId iv randomValues origin fileBytes fileType
      fileName expiresIn customPassCode =
      ⟨⟨(createShareCleanup o st.remote shareId).1, st.localIdx⟩,
        .put (metadataPathOf shareId) :: (createShareCleanup o st.remote shareId).2,
        .error e⟩ := by
  unfold createShare uploadFile
  dsimp only
  rw [encryptData_ok _ _ _ (chosenPassCode_ne_empty customPassCode randomValues),
    h1]

theorem createShare_eq_fileFault (o : Oracle) (st : SysState) (now : Nat)
    (shareId : String) (iv randomValues : List Nat) (origin : String)
    (fileBytes : List Nat) (fileType fileName : String) (expiresIn : Nat)
    (customPassCode : Option String) (e : String)
    (h1 : o.uploadFault (metadataPathOf shareId) = none)
    (h2 : o.uploadFault (filePathOf shareId) = some e) :
    createShare o st now shareId iv randomValues origin fileBytes fileType
      fileName expiresIn customPassCode =
      ⟨⟨(createShareCleanup o (putObj st.remote (metadataPathOf shareId)
          (encodeStr (encryptedBlob
            (stringifyMetadata (createdMetadata now shareId randomValues fileBytes
              fileType fileName expiresIn customPassCode))
            (chosenPassCode customPassCode randomValues) iv))) shareId).1,
        st.localIdx⟩,
        .put (metadataPathOf shareId) :: .put (filePathOf shareId) ::
          (createShareCleanup o (putObj st.remote (metadataPathOf shareId)
            (encodeStr (encryptedBlob
              (stringifyMetadata (createdMetadata now shareId randomValues fileBytes
                fileType fileName expiresIn customPassCode))
              (chosenPassCode customPassCode randomValues) iv))) shareId).2,
        .error e⟩ := by
  unfold createShare uploadFile createdMetadata
  dsimp only
  rw [encryptData_ok _ _ _ (chosenPassCode_ne_empty customPassCode randomValues),
    h1, h2]

/-- Per-entry count of the cleanup loop, for an arbitrary transport: exactly
the expired entries whose two remote deletes the transport lets succeed are
counted. -/
theorem cleanupLoop_count (o : Oracle) (now : Nat) (entries : List ShareMetadata) :
    ∀ st : SysState,
      (cleanupLoop o now entries st).2.2 =
        (entries.filter (fun m => decide (now > m.expiresAt) &&
          deleteFaultFree o m.shareId)).length := by
  induction entries with
  | nil => intro st; rfl
  | cons m rest ih =>
    intro st
    unfold cleanupLoop
    by_cases hexp : now > m.expiresAt
    · rw [if_pos hexp]
      dsimp only
      rcases hc : cleanupLoop o now rest (deleteShare o st m.shareId).state
        with ⟨st2, tr2, n2⟩
      have ihn := ih (deleteShare o st m.shareId).state
      rw [hc] at ihn
      cases hres : (deleteShare o st m.shareId).result with
      | ok u =>
        have hff : deleteFaultFree o m.shareId = true :=
          (deleteShare_result_ok_iff o st m.shareId).mp (by rw [hres])
        rw [List.filter_cons_of_pos (by simp [hexp, hff])]
        simpa using ihn
      | error e =>
        have hff : ¬ deleteFaultFree o m.shareId = true := by
          intro hff
          have := (deleteShare_result_ok_iff o st m.shareId).mpr hff
          rw [hres] at this
          cases this
        rw [List.filter_cons_of_neg (by simp [hexp, hff])]
        simpa using ihn
    · rw [if_neg hexp]
      rw [List.filter_cons_of_neg (by simp [hexp])]
      exact ih st

/-- The cleanup loop's final state does not depend on the per-entry delete
outcome beyond the state `deleteShare` left. -/
theorem cleanupLoop_state_expired (o : Oracle) (now : Nat) (m : ShareMetadata)
    (rest : List ShareMetadata) (st : SysState) (hexp : now > m.expiresAt) :
    (cleanupLoop o now (m :: rest) st).1 =
      (cleanupLoop o now rest (deleteShare o st m.shareId).state).1 := by
  show (cleanupLoop o now (m :: rest) st).1 = _
  simp only [cleanupLoop]
  rw [if_pos hexp]
  rcases hc : cleanupLoop o now rest (deleteShare o st m.shareId).state
    with ⟨st2, tr2, n2⟩
  cases (deleteShare o st m.shareId).result with
  | ok u => rfl
  | error e => rfl

theorem cleanupLoop_state_live (o : Oracle) (now : Nat) (m : ShareMetadata)
    (rest : List ShareMetadata) (st : SysState) (hexp : ¬ now > m.expiresAt) :
    cleanupLoop o now (m :: rest) st = cleanupLoop o now rest st := by
  show cleanupLoop o now (m :: rest) st = _
  simp only [cleanupLoop]
  rw [if_neg hexp]

/-- Remote objects at paths not belonging to any expired entry of the
snapshot are untouched by the cleanup loop, for any transport. -/
theorem cleanupLoop_remote_frame (o : Oracle) (now : Nat)
    (entries : List ShareMetadata) :
    ∀ (st : SysState) (path : String),
      (∀ m ∈ entries, now > m.expiresAt →
        path ≠ metadataPathOf m.shareId ∧ path ≠ filePathOf m.shareId) →
      lookupObj (cleanupLoop o now entries st).1.remote path
        = lookupObj st.remote path := by
  induction entries with
  | nil => intro st path _; rfl
  | cons m rest ih =>
    intro st path hpath
    by_cases hexp : now > m.expiresAt
    · rw [cleanupLoop_state_expired o now m rest st hexp]
      have hm := hpath m (by simp) hexp
      rw [ih (deleteShare o st m.shareId).state path
        (fun m' hm' he => hpath m' (by simp [hm']) he)]
      exact deleteShare_remote_frame o st m.shareId path hm.1 hm.2
    · rw [cleanupLoop_state_live o now m rest st hexp]
      exact ih st path (fun m' hm' he => hpath m' (by simp [hm']) he)

/-- Entries whose `shareId` belongs to no expired snapshot entry survive the
cleanup loop, for any transport. -/
theorem cleanupLoop_preserves (o : Oracle) (now : Nat)
    (entries : List ShareMetadata) :
    ∀ (st : SysState) (m' : ShareMetadata),
      m' ∈ st.localIdx →
      (∀ m ∈ entries, now > m.expiresAt → m.shareId ≠ m'.shareId) →
      m' ∈ (cleanupLoop o now entries st).1.localIdx := by
  induction entries with
  | nil => intro st m' hm _; exact hm
  | cons m rest ih =>
    intro st m' hm hids
    by_cases hexp : now > m.expiresAt
    · rw [cleanupLoop_state_expired o now m rest st hexp]
      refine ih (deleteShare o st m.shareId).state m' ?_
        (fun mm hmm he => hids mm (by simp [hmm]) he)
      have hne : m.shareId ≠ m'.shareId := hids m (by simp) hexp
      cases hres : (deleteShare o st m.shareId).result with
      | error e =>
        rw [deleteShare_localIdx_of_error o st m.shareId e hres]
        exact hm
      | ok u =>
        have hff : deleteFaultFree o m.shareId = true :=
          (deleteShare_result_ok_iff o st m.shareId).mp (by rw [hres])
        rw [deleteShare_of_faultFree o st m.shareId hff]
        unfold deleteEntry
        refine List.mem_filter.mpr ⟨hm, ?_⟩
        simp only [bne_iff_ne, ne_eq]
        exact fun h => hne h.symm
    · rw [cleanupLoop_state_live o now m rest st hexp]
      exact ih st m' hm (fun mm hmm he => hids mm (by simp [hmm]) he)

/-- With a fault-free transport, the cleanup loop's final index is the
initial index minus every entry whose `shareId` is that of an expired
snapshot entry. -/
theorem cleanupLoop_localIdx_noFaults (o : Oracle) (now : Nat)
    (entries : List ShareMetadata)
    (hnf : ∀ id, deleteFaultFree o id = true) :
    ∀ st : SysState,
      (cleanupLoop o now entries st).1.localIdx =
        st.localIdx.filter (fun e =>
          !(entries.any (fun m => m.shareId == e.shareId &&
            decide (now > m.expiresAt)))) := by
  induction entries with
  | nil =>
    intro st
    simp [cleanupLoop]
  | cons m rest ih =>
    intro st
    by_cases hexp : now > m.expiresAt
    · rw [cleanupLoop_state_expired o now m rest st hexp,
        ih (deleteShare o st m.shareId).state,
        deleteShare_of_faultFree o st m.shareId (hnf m.shareId)]
      show (deleteEntry st.localIdx m.shareId).filter _ = _
      unfold deleteEntry
      rw [List.filter_filter]
      refine List.filter_congr ?_
      intro e he
      by_cases hid : e.shareId = m.shareId
      · simp [hid, hexp]
      · have hid' : ¬ m.shareId = e.shareId := fun h => hid h.symm
        have h1 : (e.shareId != m.shareId) = true := by
          simpa [bne_iff_ne] using hid
        have h2 : (m.shareId == e.shareId) = false := by
          simpa using hid'
        simp only [h1, h2, Bool.and_true, List.any_cons, Bool.false_and,
          Bool.false_or]
    · rw [cleanupLoop_state_live o now m rest st hexp, ih st]
      refine List.filter_congr ?_
      intro e he
      simp [hexp]

theorem deleteShare_trace_cases (o : Oracle) (st : SysState) (id : String) :
    (deleteShare o st id).trace = [.del (metadataPathOf id)] ∨
    (deleteShare o st id).trace
      = [.del (metadataPathOf id), .del (filePathOf id)] := by
  cases h1 : o.deleteFault (metadataPathOf id) with
  | some e =>
    rw [deleteShare_eq_fault1 o st id e h1]
    exact Or.inl rfl
  | none =>
    cases h2 : o.deleteFault (filePathOf id) with
    | some e =>
      rw [deleteShare_eq_fault2 o st id e h1 h2]
      exact Or.inr rfl
    | none =>
      rw [deleteShare_of_faultFree o st id
        (by unfold deleteFaultFree; simp [h1, h2])]
      exact Or.inr rfl

theorem getShare_trace_cases (o : Oracle) (st : SysState) (now : Nat)
    (id p : String) :
    (getShare o st now id p).trace = [.get (metadataPathOf id)] ∨
    (getShare o st now id p).trace
      = .get (metadataPathOf id) :: (deleteShare o st id).trace := by
  unfold getShare
  cases downloadFile o st.remote (metadataPathOf id) with
  | error e => exact Or.inl rfl
  | ok body =>
    dsimp only
    cases decryptData (blobText body) p with
    | error e => exact Or.inl rfl
    | ok bytes =>
      dsimp only
      cases parseMetadata bytes with
      | none => exact Or.inl rfl
      | some metadata =>
        dsimp only
        by_cases hexp : now > metadata.expiresAt
        · rw [if_pos hexp]
          cases (deleteShare o st id).result with
          | ok _ => exact Or.inr rfl
          | error e => exact Or.inr rfl
        · rw [if_neg hexp]
          exact Or.inl rfl

theorem getShare_trace_head (o : Oracle) (st : SysState) (now : Nat)
    (id p : String) :
    (getShare o st now id p).trace.head? = some (.get (metadataPathOf id)) := by
  rcases getShare_trace_cases o st now id p with h | h <;> rw [h] <;> rfl

theorem createShareCleanup_trace_cases (o : Oracle) (r : RemoteStore) (id : String) :
    (createShareCleanup o r id).2 = [.del (metadataPathOf id)] ∨
    (createShareCleanup o r id).2
      = [.del (metadataPathOf id), .del (filePathOf id)] := by
  unfold createShareCleanup deleteFile
  cases o.deleteFault (metadataPathOf id) with
  | some e => exact Or.inl rfl
  | none =>
    dsimp only
    cases o.deleteFault (filePathOf id) with
    | some e => exact Or.inr rfl
    | none => exact Or.inr rfl

theorem createShareCleanup_delOk (o : Oracle) (r : RemoteStore) (id : String)
    (h : o.deleteFault (metadataPathOf id) = none) :
    (createShareCleanup o r id).2
      = [.del (metadataPathOf id), .del (filePathOf id)] ∧
    lookupObj (createShareCleanup o r id).1 (metadataPathOf id) = none ∧
    (o.deleteFault (filePathOf id) = none →
      lookupObj (createShareCleanup o r id).1 (filePathOf id) = none) := by
  unfold createShareCleanup deleteFile
  rw [h]
  dsimp only
  cases h2 : o.deleteFault (filePathOf id) with
  | some e =>
    refine ⟨rfl, lookupObj_removeObj_same _ _, ?_⟩
    intro hc
    cases hc
  | none =>
    refine ⟨rfl, ?_, fun _ => lookupObj_removeObj_same _ _⟩
    rw [lookupObj_removeObj_other _ _ _ (metadataPathOf_ne_filePathOf id id)]
    exact lookupObj_removeObj_same _ _

theorem createShare_trace_cases (o : Oracle) (st : SysState) (now : Nat)
    (shareId : String) (iv randomValues : List Nat) (origin : String)
    (fileBytes : List Nat) (fileType fileName : String) (expiresIn : Nat)
    (customPassCode : Option String) :
    (createShare o st now shareId iv randomValues origin fileBytes fileType
        fileName expiresIn customPassCode).trace
      = [.put (metadataPathOf shareId), .put (filePathOf shareId)] ∨
    (∃ dels, (dels = [.del (metadataPathOf shareId)] ∨
        dels = [.del (metadataPathOf shareId), .del (filePathOf shareId)]) ∧
      ((createShare o st now shareId iv randomValues origin fileBytes fileType
          fileName expiresIn customPassCode).trace
        = .put (metadataPathOf shareId) :: dels ∨
       (createShare o st now shareId iv randomValues origin fileBytes fileType
          fileName expiresIn customPassCode).trace
        = .put (metadataPathOf shareId) :: .put (filePathOf shareId) :: dels)) := by
  cases h1 : o.uploadFault (metadataPathOf shareId) with
  | some e =>
    rw [createShare_eq_metaFault o st now shareId iv randomValues origin fileBytes
      fileType fileName expiresIn customPassCode e h1]
    exact Or.inr ⟨_, createShareCleanup_trace_cases o st.remote shareId, Or.inl rfl⟩
  | none =>
    cases h2 : o.uploadFault (filePathOf shareId) with
    | some e =>
      rw [createShare_eq_fileFault o st now shareId iv randomValues origin fileBytes
        fileType fileName expiresIn customPassCode e h1 h2]
      exact Or.inr ⟨_, createShareCleanup_trace_cases o _ shareId, Or.inr rfl⟩
    | none =>
      rw [createShare_eq_ok o st now shareId iv randomValues origin fileBytes
        fileType fileName expiresIn customPassCode h1 h2]
      exact Or.inl rfl

/-! ### Concrete sample data for witnesses and counterexamples -/

def sampleIV : List Nat :=
  List.replicate 12 7

def sampleMetadata : ShareMetadata :=
  ⟨"id1", "a.txt", 3, "text/plain", 3, 5, "ab12cd"⟩

def sampleBody : List Nat :=
  encodeStr (encryptedBlob (stringifyMetadata sampleMetadata) "ab12cd" sampleIV)

def sampleState : SysState :=
  ⟨[(metadataPathOf "id1", sampleBody), (filePathOf "id1", [1, 2, 3])],
    [sampleMetadata]⟩

/-! ### The claims -/

/-- Claim C2: for every metadata value and every (non-empty) passcode, with a
fresh 12-byte random IV as `crypto.getRandomValues` draws it, decrypting the
output of `encryptData` with the same passcode succeeds and returns the JSON
serialization of the metadata; the blob round-trips through base64 with the
12-byte nonce prepended by `encryptData` and stripped by `decryptData`, and
each call derives its key from the passcode independently, so separately
derived keys are interoperable. -/
theorem C2_encrypt_decrypt_roundtrip (m : ShareMetadata) (passCode : String)
    (iv : List Nat) (hpc : passCode ≠ "") (hiv : iv.length = 12)
    (hivb : ∀ b ∈ iv, b < 256) :
    ∃ ct, encryptData (stringifyMetadata m) passCode iv = .ok ct ∧
      decryptData ct passCode = .ok (stringifyMetadata m) ∧
      ∃ combined, base64ToArrayBuffer ct = some combined ∧
        combined.take 12 = iv ∧
        aesGcmDecrypt (derivedKey passCode) iv (combined.drop 12)
          = .ok (stringifyMetadata m) := by
  refine ⟨encryptedBlob (stringifyMetadata m) passCode iv,
    encryptData_ok _ _ _ hpc,
    decryptData_encryptedBlob _ _ _ hpc hiv hivb (stringifyMetadata_lt_256 m),
    iv ++ aesGcmEncrypt (derivedKey passCode) iv (stringifyMetadata m),
    base64_roundtrip _ (combined_lt_256 _ _ _ hivb (stringifyMetadata_lt_256 m)),
    ?_, ?_⟩
  · rw [← hiv]
    exact List.take_left _ _
  · have hdrop : (iv ++ aesGcmEncrypt (derivedKey passCode) iv
        (stringifyMetadata m)).drop 12
        = aesGcmEncrypt (derivedKey passCode) iv (stringifyMetadata m) := by
      rw [← hiv]
      exact List.drop_left _ _
    rw [hdrop]
    exact aesGcmDecrypt_encrypt _ _ _ _

/-- Witness for C2 at a concrete metadata value, passcode and IV. -/
theorem C2_witness :
    (("ab12cd" : String) ≠ "" ∧ sampleIV.length = 12 ∧
      ∀ b ∈ sampleIV, b < 256) ∧
    (∃ ct, encryptData (stringifyMetadata sampleMetadata) "ab12cd" sampleIV
        = .ok ct ∧
      decryptData ct "ab12cd" = .ok (stringifyMetadata sampleMetadata) ∧
      ∃ combined, base64ToArrayBuffer ct = some combined ∧
        combined.take 12 = sampleIV ∧
        aesGcmDecrypt (derivedKey "ab12cd") sampleIV (combined.drop 12)
          = .ok (stringifyMetadata sampleMetadata)) :=
  ⟨⟨by decide, by decide, by decide⟩,
    C2_encrypt_decrypt_roundtrip sampleMetadata "ab12cd" sampleIV (by decide)
      (by decide) (by decide)⟩

/-- Claim C10: `deriveKeyFromPassCode` fails with a key-derivation error
exactly on the empty passcode (the crypto provider being available is part of
the platform model, per the spec's section 4.1), and for every non-empty
passcode it succeeds with a 256-bit AES-GCM key. -/
theorem C10_deriveKey_total (p : String) :
    (p = "" → deriveKeyFromPassCode p = .error "Key derivation failed") ∧
    (p ≠ "" → ∃ k, deriveKeyFromPassCode p = .ok k ∧
      k.algorithm = "AES-GCM" ∧ k.length = 256) := by
  constructor
  · intro h
    unfold deriveKeyFromPassCode
    rw [if_pos h]
  · intro h
    exact ⟨derivedKey p, deriveKey_ok p h, rfl, rfl⟩

/-- Witness for C10 at the empty passcode and a concrete non-empty one. -/
theorem C10_witness :
    deriveKeyFromPassCode "" = .error "Key derivation failed" ∧
    ∃ k, deriveKeyFromPassCode "ab12cd" = .ok k ∧
      k.algorithm = "AES-GCM" ∧ k.length = 256 :=
  ⟨(C10_deriveKey_total "").1 rfl, (C10_deriveKey_total "ab12cd").2 (by decide)⟩

/-- Claim C3: decrypting a blob encrypted under one passcode with any other
passcode fails, and `getShare` surfaces every decryption failure — wrong
passcode, truncated input, or corrupted ciphertext — as the single error
`Invalid share ID or passcode`, never revealing which half was wrong. -/
theorem C3_wrong_passcode_single_error :
    (∀ (dataBytes : List Nat) (p1 p2 : String) (iv : List Nat),
      p1 ≠ "" → p1 ≠ p2 → iv.length = 12 → (∀ b ∈ iv, b < 256) →
      (∀ b ∈ dataBytes, b < 256) →
      ∃ ct e, encryptData dataBytes p1 iv = .ok ct ∧
        decryptData ct p2 = .error e) ∧
    (∀ (o : Oracle) (st : SysState) (now : Nat) (shareId p e : String)
      (body : List Nat),
      o.downloadFault (metadataPathOf shareId) = none →
      lookupObj st.remote (metadataPathOf shareId) = some body →
      decryptData (blobText body) p = .error e →
      (getShare o st now shareId p).result
        = .error "Invalid share ID or passcode") := by
  constructor
  · intro dataBytes p1 p2 iv hp1 hne hiv hivb hdb
    obtain ⟨e, he⟩ :=
      decryptData_wrong_passcode dataBytes p1 p2 iv hp1 hne hiv hivb hdb
    exact ⟨_, e, encryptData_ok _ _ _ hp1, he⟩
  · intro o st now shareId p e body hdf hlook hdec
    have hms := decryptData_error_msgs _ _ _ hdec
    unfold getShare downloadFile
    rw [hdf]
    dsimp only
    rw [hlook]
    dsimp only
    rw [hdec]
    dsimp only
    show Except.error (mapGetShareError e) = _
    unfold mapGetShareError
    rcases hms with h | h | h <;> subst h <;> rfl

set_option maxRecDepth 10000 in
/-- Witness for C3: a wrong passcode fails to decrypt a concrete blob, and a
concrete fetch with the wrong passcode returns the single error message. -/
theorem C3_witness :
    (∃ ct e, encryptData (stringifyMetadata sampleMetadata) "ab12cd" sampleIV
        = .ok ct ∧ decryptData ct "wrong1" = .error e) ∧
    (getShare idealOracle sampleState 4 "id1" "wrong1").result
      = .error "Invalid share ID or passcode" :=
  ⟨C3_wrong_passcode_single_error.1 (stringifyMetadata sampleMetadata)
      "ab12cd" "wrong1" sampleIV (by decide) (by decide) (by decide) (by decide)
      (stringifyMetadata_lt_256 sampleMetadata),
    C3_wrong_passcode_single_error.2 idealOracle sampleState 4 "id1" "wrong1"
      "Decryption failed" sampleBody rfl rfl (by rfl)⟩

/-- Claim C5: `createShare` writes the local index entry only after both
remote uploads succeeded; on every failure path the local index is left
completely unchanged. -/
theorem C5_localIndex_after_success (o : Oracle) (st : SysState) (now : Nat)
    (shareId : String) (iv randomValues : List Nat) (origin : String)
    (fileBytes : List Nat) (fileType fileName : String) (expiresIn : Nat)
    (customPassCode : Option String) :
    (∀ e, (createShare o st now shareId iv randomValues origin fileBytes
        fileType fileName expiresIn customPassCode).result = .error e →
      (createShare o st now shareId iv randomValues origin fileBytes fileType
        fileName expiresIn customPassCode).state.localIdx = st.localIdx) ∧
    (∀ v, (createShare o st now shareId iv randomValues origin fileBytes
        fileType fileName expiresIn customPassCode).result = .ok v →
      o.uploadFault (metadataPathOf shareId) = none ∧
      o.uploadFault (filePathOf shareId) = none ∧
      (createShare o st now shareId iv randomValues origin fileBytes fileType
          fileName expiresIn customPassCode).state.localIdx
        = putEntry st.localIdx (createdMetadata now shareId randomValues
            fileBytes fileType fileName expiresIn customPassCode)) := by
  cases h1 : o.uploadFault (metadataPathOf shareId) with
  | some e1 =>
    rw [createShare_eq_metaFault o st now shareId iv randomValues origin
      fileBytes fileType fileName expiresIn customPassCode e1 h1]
    exact ⟨fun e he => rfl, fun v hv => by cases hv⟩
  | none =>
    cases h2 : o.uploadFault (filePathOf shareId) with
    | some e2 =>
      rw [createShare_eq_fileFault o st now shareId iv randomValues origin
        fileBytes fileType fileName expiresIn customPassCode e2 h1 h2]
      exact ⟨fun e he => rfl, fun v hv => by cases hv⟩
    | none =>
      rw [createShare_eq_ok o st now shareId iv randomValues origin fileBytes
        fileType fileName expiresIn customPassCode h1 h2]
      constructor
      · intro e he
        cases he
      · intro v hv
        refine ⟨by simp [h1], by simp [h2], rfl⟩

/-- An oracle whose transport rejects the payload upload of share `id1`. -/
def fileFaultOracle : Oracle :=
  ⟨fun p => if p = filePathOf "id1" then some "Network error during upload"
    else none,
   fun _ => none, fun _ => none⟩

set_option maxRecDepth 10000 in
/-- Witness for C5: a concrete `createShare` whose payload upload fails
leaves the (empty) local index unchanged. -/
theorem C5_witness :
    (createShare fileFaultOracle ⟨[], []⟩ 3 "id1" sampleIV [] "https://litek.app"
        [1, 2, 3] "text/plain" "a.txt" 2 (some "ab12cd")).result
      = .error "Network error during upload" ∧
    (createShare fileFaultOracle ⟨[], []⟩ 3 "id1" sampleIV [] "https://litek.app"
        [1, 2, 3] "text/plain" "a.txt" 2 (some "ab12cd")).state.localIdx = [] :=
  ⟨by rfl,
    (C5_localIndex_after_success fileFaultOracle ⟨[], []⟩ 3 "id1" sampleIV []
        "https://litek.app" [1, 2, 3] "text/plain" "a.txt" 2 (some "ab12cd")).1
      "Network error during upload" (by rfl)⟩

/-- Claim C4: within a single `createShare` call the metadata upload strictly
precedes the payload upload (any recorded payload PUT comes immediately after
the metadata PUT, sequential and never concurrent); and when the payload
upload fails, the compensating deletes of both remote objects are attempted
(best effort: the payload delete only if the metadata delete did not itself
throw) before the original error is surfaced; when the compensation transport
works, both objects are absent afterwards. -/
theorem C4_order_and_compensation (o : Oracle) (st : SysState) (now : Nat)
    (shareId : String) (iv randomValues : List Nat) (origin : String)
    (fileBytes : List Nat) (fileType fileName : String) (expiresIn : Nat)
    (customPassCode : Option String) :
    ((.put (filePathOf shareId)) ∈ (createShare o st now shareId iv randomValues
        origin fileBytes fileType fileName expiresIn customPassCode).trace →
      ∃ rest, (createShare o st now shareId iv randomValues origin fileBytes
          fileType fileName expiresIn customPassCode).trace
        = .put (metadataPathOf shareId) :: .put (filePathOf shareId) :: rest) ∧
    (∀ e, o.uploadFault (metadataPathOf shareId) = none →
      o.uploadFault (filePathOf shareId) = some e →
      (createShare o st now shareId iv randomValues origin fileBytes fileType
        fileName expiresIn customPassCode).result = .error e ∧
      (.del (metadataPathOf shareId)) ∈ (createShare o st now shareId iv
        randomValues origin fileBytes fileType fileName expiresIn
        customPassCode).trace ∧
      (o.deleteFault (metadataPathOf shareId) = none →
        (.del (filePathOf shareId)) ∈ (createShare o st now shareId iv
          randomValues origin fileBytes fileType fileName expiresIn
          customPassCode).trace ∧
        lookupObj (createShare o st now shareId iv randomValues origin fileBytes
          fileType fileName expiresIn customPassCode).state.remote
          (metadataPathOf shareId) = none ∧
        (o.deleteFault (filePathOf shareId) = none →
          lookupObj (createShare o st now shareId iv randomValues origin
            fileBytes fileType fileName expiresIn customPassCode).state.remote
            (filePathOf shareId) = none))) := by
  have hne : metadataPathOf shareId ≠ filePathOf shareId :=
    metadataPathOf_ne_filePathOf shareId shareId
  constructor
  · intro hmem
    rcases createShare_trace_cases o st now shareId iv randomValues origin
      fileBytes fileType fileName expiresIn customPassCode with h | ⟨dels, hd, h | h⟩
    · exact ⟨[], h⟩
    · exfalso
      rw [h] at hmem
      rcases hd with hd | hd <;> rw [hd] at hmem <;> simp at hmem <;>
        exact hne hmem.symm
    · exact ⟨dels, h⟩
  · intro e h1 h2
    rw [createShare_eq_fileFault o st now shareId iv randomValues origin
      fileBytes fileType fileName expiresIn customPassCode e h1 h2]
    refine ⟨rfl, ?_, ?_⟩
    · rcases createShareCleanup_trace_cases o (putObj st.remote
          (metadataPathOf shareId) (encodeStr (encryptedBlob
            (stringifyMetadata (createdMetadata now shareId randomValues
              fileBytes fileType fileName expiresIn customPassCode))
            (chosenPassCode customPassCode randomValues) iv))) shareId
        with hc | hc <;> rw [hc] <;> simp
    · intro hdm
      obtain ⟨htr, hmeta, hfile⟩ := createShareCleanup_delOk o (putObj st.remote
        (metadataPathOf shareId) (encodeStr (encryptedBlob
          (stringifyMetadata (createdMetadata now shareId randomValues
            fileBytes fileType fileName expiresIn customPassCode))
          (chosenPassCode customPassCode randomValues) iv))) shareId hdm
      refine ⟨?_, hmeta, hfile⟩
      rw [htr]
      simp

set_option maxRecDepth 10000 in
/-- Witness for C4: a concrete `createShare` whose payload upload fails
surfaces the original error after attempting both compensating deletes, and
its trace is metadata PUT, payload PUT, then the deletes. -/
theorem C4_witness :
    (createShare fileFaultOracle sampleState 3 "id1" sampleIV []
        "https://litek.app" [1, 2, 3] "text/plain" "a.txt" 2
        (some "ab12cd")).result = .error "Network error during upload" ∧
    (.del (metadataPathOf "id1")) ∈ (createShare fileFaultOracle sampleState 3
      "id1" sampleIV [] "https://litek.app" [1, 2, 3] "text/plain" "a.txt" 2
      (some "ab12cd")).trace ∧
    (.del (filePathOf "id1")) ∈ (createShare fileFaultOracle sampleState 3
      "id1" sampleIV [] "https://litek.app" [1, 2, 3] "text/plain" "a.txt" 2
      (some "ab12cd")).trace ∧
    lookupObj (createShare fileFaultOracle sampleState 3 "id1" sampleIV []
      "https://litek.app" [1, 2, 3] "text/plain" "a.txt" 2
      (some "ab12cd")).state.remote (metadataPathOf "id1") = none ∧
    lookupObj (createShare fileFaultOracle sampleState 3 "id1" sampleIV []
      "https://litek.app" [1, 2, 3] "text/plain" "a.txt" 2
      (some "ab12cd")).state.remote (filePathOf "id1") = none := by
  have h := (C4_order_and_compensation fileFaultOracle sampleState 3 "id1"
    sampleIV [] "https://litek.app" [1, 2, 3] "text/plain" "a.txt" 2
    (some "ab12cd")).2 "Network error during upload" (by rfl) (by rfl)
  obtain ⟨hr, hdm, hrest⟩ := h
  obtain ⟨hdf, hmeta, hfile⟩ := hrest (by rfl)
  exact ⟨hr, hdm, hdf, hmeta, hfile (by rfl)⟩

/-- Claim C9: a successful `createShare` stores the encrypted metadata at
exactly `/<shareId>_metadata.json.enc` and the payload at exactly
`/<shareId>_file.dat` (flat namespace: no other remote path changes), and
returns a share URL of exactly the form
`<origin>/share/<shareId>?code=<urlEncodedPassCode>`; `getShare` reads the
metadata back from the same `/<shareId>_metadata.json.enc` path (its first
remote operation is a GET of that path). -/
theorem C9_paths_and_url (o : Oracle) (st : SysState) (now : Nat)
    (shareId : String) (iv randomValues : List Nat) (origin : String)
    (fileBytes : List Nat) (fileType fileName : String) (expiresIn : Nat)
    (customPassCode : Option String) (sid pc url : String)
    (hok : (createShare o st now shareId iv randomValues origin fileBytes
      fileType fileName expiresIn customPassCode).result = .ok (sid, pc, url)) :
    sid = shareId ∧
    url = origin ++ "/share/" ++ shareId ++ "?code=" ++ encodeURIComponent pc ∧
    (∃ body, lookupObj (createShare o st now shareId iv randomValues origin
        fileBytes fileType fileName expiresIn customPassCode).state.remote
        ("/" ++ shareId ++ "_metadata.json.enc") = some body) ∧
    lookupObj (createShare o st now shareId iv randomValues origin fileBytes
      fileType fileName expiresIn customPassCode).state.remote
      ("/" ++ shareId ++ "_file.dat") = some fileBytes ∧
    (∀ path, path ≠ "/" ++ shareId ++ "_metadata.json.enc" →
      path ≠ "/" ++ shareId ++ "_file.dat" →
      lookupObj (createShare o st now shareId iv randomValues origin fileBytes
        fileType fileName expiresIn customPassCode).state.remote path
        = lookupObj st.remote path) ∧
    (∀ (o' : Oracle) (st' : SysState) (now' : Nat) (p : String),
      (getShare o' st' now' shareId p).trace.head?
        = some (.get ("/" ++ shareId ++ "_metadata.json.enc"))) := by
  have hne : metadataPathOf shareId ≠ filePathOf shareId :=
    metadataPathOf_ne_filePathOf shareId shareId
  cases h1 : o.uploadFault (metadataPathOf shareId) with
  | some e1 =>
    rw [createShare_eq_metaFault o st now shareId iv randomValues origin
      fileBytes fileType fileName expiresIn customPassCode e1 h1] at hok
    cases hok
  | none =>
    cases h2 : o.uploadFault (filePathOf shareId) with
    | some e2 =>
      rw [createShare_eq_fileFault o st now shareId iv randomValues origin
        fileBytes fileType fileName expiresIn customPassCode e2 h1 h2] at hok
      cases hok
    | none =>
      rw [createShare_eq_ok o st now shareId iv randomValues origin fileBytes
        fileType fileName expiresIn customPassCode h1 h2] at hok ⊢
      simp only [Except.ok.injEq, Prod.mk.injEq] at hok
      obtain ⟨hsid, hpc, hurl⟩ := hok
      subst hsid
      subst hpc
      subst hurl
      refine ⟨rfl, rfl, ?_, ?_, ?_, ?_⟩
      · refine ⟨encodeStr (encryptedBlob (stringifyMetadata (createdMetadata now
          shareId randomValues fileBytes fileType fileName expiresIn
          customPassCode)) (chosenPassCode customPassCode randomValues) iv), ?_⟩
        show lookupObj (putObj _ (filePathOf shareId) fileBytes)
          (metadataPathOf shareId) = _
        rw [lookupObj_putObj_other _ _ _ _ hne, lookupObj_putObj_same]
      · show lookupObj (putObj _ (filePathOf shareId) fileBytes)
          (filePathOf shareId) = _
        rw [lookupObj_putObj_same]
      · intro path hm hf
        have hm' : path ≠ metadataPathOf shareId := hm
        have hf' : path ≠ filePathOf shareId := hf
        show lookupObj (putObj (putObj st.remote (metadataPathOf shareId) _)
          (filePathOf shareId) fileBytes) path = _
        rw [lookupObj_putObj_other _ _ _ _ hf',
          lookupObj_putObj_other _ _ _ _ hm']
      · intro o' st' now' p
        exact getShare_trace_head o' st' now' shareId p

set_option maxRecDepth 10000 in
/-- Witness for C9: a concrete successful `createShare` and the paths and URL
it produced. -/
theorem C9_witness :
    (createShare idealOracle ⟨[], []⟩ 3 "id1" sampleIV [] "https://litek.app"
        [1, 2, 3] "text/plain" "a.txt" 2 (some "ab12cd")).result
      = .ok ("id1", "ab12cd", "https://litek.app/share/id1?code=ab12cd") ∧
    ("https://litek.app/share/id1?code=ab12cd" : String)
      = "https://litek.app" ++ "/share/" ++ "id1" ++ "?code=" ++
        encodeURIComponent "ab12cd" ∧
    lookupObj (createShare idealOracle ⟨[], []⟩ 3 "id1" sampleIV []
      "https://litek.app" [1, 2, 3] "text/plain" "a.txt" 2
      (some "ab12cd")).state.remote ("/" ++ "id1" ++ "_file.dat")
      = some [1, 2, 3] ∧
    (∃ body, lookupObj (createShare idealOracle ⟨[], []⟩ 3 "id1" sampleIV []
      "https://litek.app" [1, 2, 3] "text/plain" "a.txt" 2
      (some "ab12cd")).state.remote ("/" ++ "id1" ++ "_metadata.json.enc")
      = some body) := by
  have h := C9_paths_and_url idealOracle ⟨[], []⟩ 3 "id1" sampleIV []
    "https://litek.app" [1, 2, 3] "text/plain" "a.txt" 2 (some "ab12cd")
    "id1" "ab12cd" "https://litek.app/share/id1?code=ab12cd" (by rfl)
  exact ⟨by rfl, h.2.1, h.2.2.2.1, h.2.2.1⟩

/-- An oracle whose transport rejects the remote delete of share `id1`'s
metadata object with a non-404 status. -/
def delFaultOracle : Oracle :=
  ⟨fun _ => none, fun _ => none,
   fun p => if p = metadataPathOf "id1"
     then some "Delete failed: 500 Internal Server Error" else none⟩

/-- Counterexample to claim C6: when the remote DELETE fails with a non-404
status, `deleteShare` does not swallow the failure — its catch block logs and
rethrows — so the caller-visible operation fails, contradicting the claim
that a partial remote delete never fails the caller-visible operation. -/
theorem C6_counterexample :
    (deleteShare delFaultOracle sampleState "id1").result
      = .error "Delete failed: 500 Internal Server Error" := rfl

/-- Claim C6 (amended): delete is idempotent — under a fault-free transport
both of two successive `deleteShare` calls on the same shareId succeed, from
any state, because the store-level delete treats an already-absent object
(HTTP 404) as success — but a transport-level remote delete failure IS
rethrown by `deleteShare` (logged, then thrown to the caller), not
swallowed. -/
theorem C6_delete_idempotent (o : Oracle) (st : SysState) (shareId : String) :
    (noFaults o →
      (deleteShare o st shareId).result = .ok () ∧
      (deleteShare o (deleteShare o st shareId).state shareId).result
        = .ok ()) ∧
    (∀ e, o.deleteFault (metadataPathOf shareId) = some e →
      (deleteShare o st shareId).result = .error e) ∧
    (∀ e, o.deleteFault (metadataPathOf shareId) = none →
      o.deleteFault (filePathOf shareId) = some e →
      (deleteShare o st shareId).result = .error e) := by
  refine ⟨?_, ?_, ?_⟩
  · intro hnf
    have hff := noFaults_deleteFaultFree o hnf shareId
    constructor
    · rw [deleteShare_of_faultFree o st shareId hff]
    · rw [deleteShare_of_faultFree o (deleteShare o st shareId).state
        shareId hff]
  · intro e he
    rw [deleteShare_eq_fault1 o st shareId e he]
  · intro e hm hf
    rw [deleteShare_eq_fault2 o st shareId e hm hf]

/-- Witness for C6: two successive deletes of a concrete share both succeed
under the fault-free transport. -/
theorem C6_witness :
    (deleteShare idealOracle sampleState "id1").result = .ok () ∧
    (deleteShare idealOracle (deleteShare idealOracle sampleState "id1").state
      "id1").result = .ok () :=
  (C6_delete_idempotent idealOracle sampleState "id1").1 noFaults_idealOracle

/-- An oracle whose transport fails the metadata download of share `id1` with
a network error. -/
def netFaultOracle : Oracle :=
  ⟨fun _ => none,
   fun p => if p = metadataPathOf "id1"
     then some "Network error during download" else none,
   fun _ => none⟩

/-- Counterexample to claim C8: a network error while downloading the
metadata blob during a fetch is NOT surfaced as a network error — `getShare`'s
catch block normalizes it to `Invalid share ID or passcode`. -/
theorem C8_counterexample :
    (getShare netFaultOracle sampleState 4 "id1" "ab12cd").result
      = .error "Invalid share ID or passcode" ∧
    "Invalid share ID or passcode" ≠ "Network error during download" :=
  ⟨rfl, by decide⟩

/-- An oracle whose transport rejects the metadata upload of share `id1`. -/
def metaFaultOracle : Oracle :=
  ⟨fun p => if p = metadataPathOf "id1"
     then some "Upload failed: 507 Insufficient Storage" else none,
   fun _ => none, fun _ => none⟩

/-- Claim C8 (amended): transport errors propagate unchanged out of
`createShare` (rethrown after compensation), `deleteShare` (rethrown after
logging), and the payload download of `downloadShare`; no operation retries —
each call's trace attempts each remote operation at most once, in a fixed
shape.  However, a transport error during `getShare`'s metadata download is
normalized by its catch block to `Invalid share ID or passcode` (`Share not
found` for a 404) instead of propagating unchanged. -/
theorem C8_transport_propagation (o : Oracle) (st : SysState) (now : Nat)
    (shareId : String) (iv randomValues : List Nat) (origin : String)
    (fileBytes : List Nat) (fileType fileName : String) (expiresIn : Nat)
    (customPassCode : Option String) :
    (∀ e, o.uploadFault (metadataPathOf shareId) = some e →
      (createShare o st now shareId iv randomValues origin fileBytes fileType
        fileName expiresIn customPassCode).result = .error e) ∧
    (∀ e, o.uploadFault (metadataPathOf shareId) = none →
      o.uploadFault (filePathOf shareId) = some e →
      (createShare o st now shareId iv randomValues origin fileBytes fileType
        fileName expiresIn customPassCode).result = .error e) ∧
    (∀ e, o.deleteFault (metadataPathOf shareId) = some e →
      (deleteShare o st shareId).result = .error e) ∧
    (∀ e p md, (getShare o st now shareId p).result = .ok md →
      o.downloadFault (filePathOf shareId) = some e →
      (downloadShare o st now shareId p).result = .error e) ∧
    (∀ e p, o.downloadFault (metadataPathOf shareId) = some e →
      e ≠ "Share has expired" → e ≠ "File not found" →
      (getShare o st now shareId p).result
        = .error "Invalid share ID or passcode") ∧
    ((createShare o st now shareId iv randomValues origin fileBytes fileType
        fileName expiresIn customPassCode).trace
      = [.put (metadataPathOf shareId), .put (filePathOf shareId)] ∨
     (∃ dels, (dels = [.del (metadataPathOf shareId)] ∨
        dels = [.del (metadataPathOf shareId), .del (filePathOf shareId)]) ∧
      ((createShare o st now shareId iv randomValues origin fileBytes fileType
          fileName expiresIn customPassCode).trace
        = .put (metadataPathOf shareId) :: dels ∨
       (createShare o st now shareId iv randomValues origin fileBytes fileType
          fileName expiresIn customPassCode).trace
        = .put (metadataPathOf shareId) :: .put (filePathOf shareId) :: dels))) ∧
    (∀ p, (getShare o st now shareId p).trace = [.get (metadataPathOf shareId)] ∨
      (getShare o st now shareId p).trace
        = .get (metadataPathOf shareId) :: (deleteShare o st shareId).trace) := by
  refine ⟨?_, ?_, ?_, ?_, ?_, ?_, ?_⟩
  · intro e he
    rw [createShare_eq_metaFault o st now shareId iv randomValues origin
      fileBytes fileType fileName expiresIn customPassCode e he]
  · intro e h1 h2
    rw [createShare_eq_fileFault o st now shareId iv randomValues origin
      fileBytes fileType fileName expiresIn customPassCode e h1 h2]
  · intro e he
    rw [deleteShare_eq_fault1 o st shareId e he]
  · intro e p md hg hf
    unfold downloadShare downloadFile
    dsimp only
    rw [hg]
    dsimp only
    rw [hf]
  · intro e p he hne1 hne2
    rw [getShare_eq_downloadFault o st now shareId p e he]
    show Except.error (mapGetShareError e) = _
    unfold mapGetShareError
    rw [if_neg hne1, if_neg hne2]
  · exact createShare_trace_cases o st now shareId iv randomValues origin
      fileBytes fileType fileName expiresIn customPassCode
  · intro p
    exact getShare_trace_cases o st now shareId p

set_option maxRecDepth 10000 in
/-- Witness for C8: a concrete metadata-upload failure propagates its exact
message out of `createShare`, and a concrete metadata-download network error
is normalized by `getShare`. -/
theorem C8_witness :
    (createShare metaFaultOracle ⟨[], []⟩ 3 "id1" sampleIV []
        "https://litek.app" [1, 2, 3] "text/plain" "a.txt" 2
        (some "ab12cd")).result
      = .error "Upload failed: 507 Insufficient Storage" ∧
    (getShare netFaultOracle sampleState 4 "id1" "ab12cd").result
      = .error "Invalid share ID or passcode" :=
  ⟨(C8_transport_propagation metaFaultOracle ⟨[], []⟩ 3 "id1" sampleIV []
      "https://litek.app" [1, 2, 3] "text/plain" "a.txt" 2 (some "ab12cd")).1
      "Upload failed: 507 Insufficient Storage" (by rfl),
   (C8_transport_propagation netFaultOracle sampleState 4 "id1" sampleIV []
      "https://litek.app" [1, 2, 3] "text/plain" "a.txt" 2
      (some "ab12cd")).2.2.2.2.1 "Network error during download" "ab12cd"
      (by rfl) (by decide) (by decide)⟩

set_option maxRecDepth 10000 in
/-- Counterexample to claim C1: fetching a concrete expired share whose
triggered delete fails surfaces `Invalid share ID or passcode`, not
`ShareExpired`; and the subsequent fetch fails the same way — neither
`ShareExpired` nor `ShareNotFound`. -/
theorem C1_counterexample :
    (getShare delFaultOracle sampleState 10 "id1" "ab12cd").result
      = .error "Invalid share ID or passcode" ∧
    "Invalid share ID or passcode" ≠ "Share has expired" ∧
    (getShare delFaultOracle (getShare delFaultOracle sampleState 10 "id1"
      "ab12cd").state 10 "id1" "ab12cd").result
      = .error "Invalid share ID or passcode" ∧
    "Invalid share ID or passcode" ≠ "Share not found" :=
  ⟨by rfl, by decide, by rfl, by decide⟩

/-- Claim C1 (amended): fetching a properly stored share whose `expiresAt`
has passed never returns the metadata, under any transport and any presented
passcode; the fetch triggers the full delete (the metadata-object delete is
attempted); with a fault-free transport the share is fully deleted — both
remote objects and the local index entry — and the fetch fails with
`Share has expired`; when the triggered delete itself fails, the fetch fails
with `Invalid share ID or passcode` instead; and any subsequent fetch of the
share also fails, never succeeding. -/
theorem C1_expired_fetch (o : Oracle) (st : SysState) (now : Nat)
    (m : ShareMetadata) (iv : List Nat) (hs : storedProperly st.remote m iv)
    (hexp : now > m.expiresAt) :
    (∀ p, ∃ e, (getShare o st now m.shareId p).result = .error e) ∧
    (o.downloadFault (metadataPathOf m.shareId) = none →
      (.del (metadataPathOf m.shareId))
        ∈ (getShare o st now m.shareId m.passCode).trace) ∧
    (noFaults o →
      (getShare o st now m.shareId m.passCode).result
        = .error "Share has expired" ∧
      lookupObj (getShare o st now m.shareId m.passCode).state.remote
        (metadataPathOf m.shareId) = none ∧
      lookupObj (getShare o st now m.shareId m.passCode).state.remote
        (filePathOf m.shareId) = none ∧
      (getShare o st now m.shareId m.passCode).state.localIdx
        = deleteEntry st.localIdx m.shareId) ∧
    (∀ e, o.downloadFault (metadataPathOf m.shareId) = none →
      o.deleteFault (metadataPathOf m.shareId) = some e →
      e ≠ "Share has expired" → e ≠ "File not found" →
      (getShare o st now m.shareId m.passCode).result
        = .error "Invalid share ID or passcode") ∧
    (∀ (o' : Oracle) (now' : Nat) (p p' : String), now' > m.expiresAt →
      ∃ e, (getShare o' (getShare o st now m.shareId p).state now'
        m.shareId p').result = .error e) := by
  refine ⟨fun p => getShare_expired_result_error o st now m iv hs hexp p,
    ?_, ?_, ?_,
    fun o' now' p p' h' => getShare_again_error o o' st now now' m iv hs h' p p'⟩
  · intro hdl
    rw [getShare_stored_expired_eq o st now m iv hs hdl hexp]
    cases hres : (deleteShare o st m.shareId).result with
    | ok u =>
      dsimp only
      rcases deleteShare_trace_cases o st m.shareId with h | h <;> rw [h] <;> simp
    | error e =>
      dsimp only
      rcases deleteShare_trace_cases o st m.shareId with h | h <;> rw [h] <;> simp
  · intro hnf
    have hdl := hnf.2.1 (metadataPathOf m.shareId)
    rw [getShare_stored_expired_eq o st now m iv hs hdl hexp,
      deleteShare_of_faultFree o st m.shareId
        (noFaults_deleteFaultFree o hnf m.shareId)]
    dsimp only
    refine ⟨rfl, ?_, ?_, rfl⟩
    · show lookupObj (removeObj (removeObj st.remote (metadataPathOf m.shareId))
        (filePathOf m.shareId)) (metadataPathOf m.shareId) = none
      rw [lookupObj_removeObj_other _ _ _
        (metadataPathOf_ne_filePathOf m.shareId m.shareId)]
      exact lookupObj_removeObj_same _ _
    · exact lookupObj_removeObj_same _ _
  · intro e hdl hdf hne1 hne2
    rw [getShare_stored_expired_eq o st now m iv hs hdl hexp,
      deleteShare_eq_fault1 o st m.shareId e hdf]
    dsimp only
    show Except.error (mapGetShareError e) = _
    unfold mapGetShareError
    rw [if_neg hne1, if_neg hne2]

set_option maxRecDepth 10000 in
/-- Witness for C1 at a concrete expired share with a fault-free transport:
the fetch fails with `Share has expired` and fully deletes the share. -/
theorem C1_witness :
    storedProperly sampleState.remote sampleMetadata sampleIV ∧
    10 > sampleMetadata.expiresAt ∧
    (getShare idealOracle sampleState 10 "id1" "ab12cd").result
      = .error "Share has expired" ∧
    lookupObj (getShare idealOracle sampleState 10 "id1" "ab12cd").state.remote
      (metadataPathOf "id1") = none ∧
    (getShare idealOracle sampleState 10 "id1" "ab12cd").state.localIdx = [] := by
  have hsp : storedProperly sampleState.remote sampleMetadata sampleIV :=
    ⟨rfl, by decide, by decide, by decide⟩
  have h := (C1_expired_fetch idealOracle sampleState 10 sampleMetadata sampleIV
    hsp (by decide)).2.2.1 noFaults_idealOracle
  refine ⟨hsp, by decide, h.1, h.2.1, ?_⟩
  have h3 : (getShare idealOracle sampleState 10 "id1" "ab12cd").state.localIdx
      = deleteEntry sampleState.localIdx "id1" := h.2.2.2
  rw [h3]
  decide

/-- Claim C7: the cleanup sweep deletes exactly the local-index entries whose
`expiresAt` is earlier than the current time, returns the count of shares
actually removed (a failed delete is not counted), continues past individual
delete failures rather than aborting the batch, and leaves unexpired entries
untouched and fetchable afterwards. -/
theorem C7_cleanup_sweep (o : Oracle) (st : SysState) (now : Nat)
    (hnodup : (st.localIdx.map ShareMetadata.shareId).Nodup) :
    (∀ m' ∈ st.localIdx, ¬ now > m'.expiresAt →
      m' ∈ (cleanupExpiredShares o st now).1.localIdx) ∧
    (cleanupExpiredShares o st now).2.2
      = (st.localIdx.filter (fun m => decide (now > m.expiresAt) &&
          deleteFaultFree o m.shareId)).length ∧
    (noFaults o →
      (cleanupExpiredShares o st now).1.localIdx
        = st.localIdx.filter (fun m => !decide (now > m.expiresAt)) ∧
      (cleanupExpiredShares o st now).2.2
        = (st.localIdx.filter (fun m => decide (now > m.expiresAt))).length) ∧
    (noFaults o → ∀ m' ∈ st.localIdx, ¬ now > m'.expiresAt →
      ∀ iv, storedProperly st.remote m' iv →
      (getShare o (cleanupExpiredShares o st now).1 now m'.shareId
        m'.passCode).result = .ok m') := by
  have hinj := List.inj_on_of_nodup_map hnodup
  refine ⟨?_, ?_, ?_, ?_⟩
  · intro m' hm' hlive
    refine cleanupLoop_preserves o now st.localIdx st m' hm' ?_
    intro mm hmm hmmexp heq
    have hmmeq : mm = m' := hinj hmm hm' heq
    exact absurd (hmmeq ▸ hmmexp) hlive
  · exact cleanupLoop_count o now st.localIdx st
  · intro hnf
    constructor
    · show (cleanupLoop o now st.localIdx st).1.localIdx = _
      rw [cleanupLoop_localIdx_noFaults o now st.localIdx
        (fun id => noFaults_deleteFaultFree o hnf id) st]
      refine List.filter_congr ?_
      intro e he
      by_cases hexp : now > e.expiresAt
      · have hany : (st.localIdx.any fun mm => mm.shareId == e.shareId &&
            decide (now > mm.expiresAt)) = true :=
          List.any_eq_true.mpr ⟨e, he, by simp [hexp]⟩
        rw [hany]
        simp [hexp]
      · have hany : (st.localIdx.any fun mm => mm.shareId == e.shareId &&
            decide (now > mm.expiresAt)) = false := by
          rw [List.any_eq_false]
          intro mm hmm
          by_cases hid : mm.shareId = e.shareId
          · have : mm = e := hinj hmm he hid
            subst this
            simp [hexp]
          · simp [hid]
        rw [hany]
        simp [hexp]
    · show (cleanupLoop o now st.localIdx st).2.2 = _
      rw [cleanupLoop_count o now st.localIdx st]
      congr 1
      refine List.filter_congr ?_
      intro e he
      rw [noFaults_deleteFaultFree o hnf e.shareId, Bool.and_true]
  · intro hnf m' hm' hlive iv hsp
    have hframe : lookupObj (cleanupExpiredShares o st now).1.remote
        (metadataPathOf m'.shareId)
        = lookupObj st.remote (metadataPathOf m'.shareId) := by
      refine cleanupLoop_remote_frame o now st.localIdx st
        (metadataPathOf m'.shareId) ?_
      intro mm hmm hmmexp
      constructor
      · intro heq
        have hid := metadataPathOf_inj _ _ heq
        have : m' = mm := hinj hm' hmm hid
        subst this
        exact hlive hmmexp
      · exact metadataPathOf_ne_filePathOf m'.shareId mm.shareId
    have hsp' : storedProperly (cleanupExpiredShares o st now).1.remote m' iv :=
      ⟨by rw [hframe]; exact hsp.1, hsp.2.1, hsp.2.2.1, hsp.2.2.2⟩
    rw [getShare_stored_ok o (cleanupExpiredShares o st now).1 now m' iv hsp'
      (hnf.2.1 _) hlive]

def activeMeta1 : ShareMetadata :=
  ⟨"b1", "a.txt", 3, "text/plain", 3, 9, "ab12cd"⟩

def activeMeta2 : ShareMetadata :=
  ⟨"b2", "c.txt", 3, "text/plain", 3, 9, "cd34ef"⟩

def expiredMeta1 : ShareMetadata :=
  ⟨"a1", "x", 1, "t", 1, 2, "zz"⟩

def expiredMeta2 : ShareMetadata :=
  ⟨"a2", "y", 1, "t", 1, 2, "zz"⟩

def expiredMeta3 : ShareMetadata :=
  ⟨"a3", "z", 1, "t", 1, 2, "zz"⟩

/-- A state with 3 expired and 2 active shares in the local index; the two
active shares also have properly stored remote metadata objects. -/
def sweepState : SysState :=
  ⟨[(metadataPathOf "b1",
      encodeStr (encryptedBlob (stringifyMetadata activeMeta1) "ab12cd" sampleIV)),
    (metadataPathOf "b2",
      encodeStr (encryptedBlob (stringifyMetadata activeMeta2) "cd34ef" sampleIV))],
   [expiredMeta1, expiredMeta2, expiredMeta3, activeMeta1, activeMeta2]⟩

set_option maxRecDepth 10000 in
/-- Witness for C7: the sweep over 3 expired and 2 active shares removes
exactly 3, returns 3, and the active entries remain in the index and
fetchable. -/
theorem C7_witness :
    (sweepState.localIdx.map ShareMetadata.shareId).Nodup ∧
    (cleanupExpiredShares idealOracle sweepState 4).2.2 = 3 ∧
    (cleanupExpiredShares idealOracle sweepState 4).1.localIdx
      = [activeMeta1, activeMeta2] ∧
    (getShare idealOracle (cleanupExpiredShares idealOracle sweepState 4).1 4
      "b1" "ab12cd").result = .ok activeMeta1 := by
  have h := C7_cleanup_sweep idealOracle sweepState 4 (by decide)
  have hsp : storedProperly sweepState.remote activeMeta1 sampleIV :=
    ⟨rfl, by decide, by decide, by decide⟩
  refine ⟨by decide, ?_, ?_, ?_⟩
  · rw [(h.2.2.1 noFaults_idealOracle).2]
    decide
  · rw [(h.2.2.1 noFaults_idealOracle).1]
    decide
  · exact h.2.2.2 noFaults_idealOracle activeMeta1 (by decide) (by decide)
      sampleIV hsp

end Litek
